import Mathlib

/-!
Verification development for the Research-Copilot pipeline.

Shallow embedding of the core algorithms of the repository:
the ReAct search loops of `backend/agents/nodes/web_research.py` and
`backend/agents/nodes/comparative_analysis.py`, the JSON repair layer of
`backend/utils/safe_structured_output.py`, and the SAS+HAS summarization
pipeline of `backend/agents/tools/SAS_HAS_processor.py`.

Strings are modelled as `List Char`.  Python string operations
(`strip`, `split`, `lower`, `upper`, substring membership) are embedded
as executable functions below.  External collaborators (the LLM and the
Tavily web-search service) are modelled as function parameters (oracles),
matching the spec's "External Interfaces" section.
-/

namespace ResearchCopilot

/-! ## Python string primitives (over `List Char`) -/

/-- ASCII whitespace as recognized by Python's `str.strip()` / `\s`
(space, tab, newline, carriage return, vertical tab, form feed). -/
def isPySpace (c : Char) : Bool :=
  c = ' ' || c = '\t' || c = '\n' || c = '\r' || c = '\x0b' || c = '\x0c'

/-- Python `str.strip()`: remove whitespace from both ends. -/
def pyStrip (s : List Char) : List Char :=
  ((s.dropWhile isPySpace).reverse.dropWhile isPySpace).reverse

/-- Python `str.lower()` (ASCII model). -/
def pyLower (s : List Char) : List Char := s.map Char.toLower

/-- Python `str.upper()` (ASCII model). -/
def pyUpper (s : List Char) : List Char := s.map Char.toUpper

/-- Python substring membership `needle in hay`. -/
def hasSub (hay needle : List Char) : Bool :=
  needle.isPrefixOf hay ||
    (match hay with
     | [] => false
     | _ :: t => hasSub t needle)

/-- Auxiliary scanner for `pySplit`, with explicit fuel.  The fuel is
always at least `s.length + 1`, so it never runs out. -/
def pySplitAux (sep : List Char) : Nat → List Char → List Char → List (List Char)
  | 0, s, cur => [cur.reverse ++ s]
  | fuel + 1, s, cur =>
    if sep ≠ [] ∧ sep.isPrefixOf s then
      cur.reverse :: pySplitAux sep fuel (s.drop sep.length) []
    else
      match s with
      | [] => [cur.reverse]
      | c :: t => pySplitAux sep fuel t (c :: cur)

/-- Python `str.split(sep)` for a non-empty separator: split on every
non-overlapping occurrence, scanning left to right. -/
def pySplit (sep s : List Char) : List (List Char) :=
  pySplitAux sep (s.length + 1) s []

/-- Python `' '.join(xs)`-style join with a separator. -/
def pyJoin (sep : List Char) : List (List Char) → List Char
  | [] => []
  | [x] => x
  | x :: y :: t => x ++ sep ++ pyJoin sep (y :: t)

/-- Decimal rendering of a natural number (Python `str(n)` / f-string). -/
def natChars (n : Nat) : List Char := (Nat.repr n).toList

/-! ## Search results and deduplication

`tavily_search` returns a list of dicts with `title`, `url`, `content`
keys (`backend/agents/tools/web_search.py`); the loops access them via
`r.get("url")` / `r.get("title")` / `r.get("content")`.  We model a
result as a record of those three fields. -/

structure SearchResult where
  title : List Char
  url : List Char
  content : List Char
deriving DecidableEq, Repr

/-- The deduplication key used by both ReAct loops:
`key = ((r.get("url") or "").strip() or (r.get("title") or "").strip()).lower()`
— the URL when its stripped form is non-empty, else the title. -/
def resultKey (r : SearchResult) : List Char :=
  let url := pyStrip r.url
  let title := pyStrip r.title
  pyLower (if url = [] then title else url)

/-- Deduplication of one incoming batch of search results, as performed
by both `web_research.py` (lines 159–168) and
`comparative_analysis.py` (lines 172–179): a fresh `seen` set is
created for the batch; a result is kept when its key is non-empty and
not already in `seen`. -/
def dedupeBatchAux (seen : List (List Char)) : List SearchResult → List SearchResult
  | [] => []
  | r :: rs =>
    let key := resultKey r
    if key = [] ∨ key ∈ seen then
      dedupeBatchAux seen rs
    else
      r :: dedupeBatchAux (key :: seen) rs

/-- Deduplicate an incoming batch (fresh `seen` set per batch). -/
def dedupeBatch (rs : List SearchResult) : List SearchResult :=
  dedupeBatchAux [] rs

/-! ## ReAct response parsing

Both loops parse the raw LLM text with substring splits
(`web_research.py` lines 131–140, `comparative_analysis.py` 141–150):
`thought = text.split("THOUGHT:")[1].split("ACTION:")[0].strip()` etc.,
with defaults `thought=""`, `action="FINISH"`, `action_input=""`. -/

structure ReActStep where
  thought : List Char
  action : List Char
  actionInput : List Char
  observation : List Char
deriving DecidableEq, Repr

/-- Parse a raw LLM response into `(thought, action, action_input)`. -/
def parseReact (responseText : List Char) : List Char × List Char × List Char :=
  let kThought := ("THOUGHT:").toList
  let kAction := ("ACTION:").toList
  let kInput := ("ACTION_INPUT:").toList
  let thought :=
    if hasSub responseText kThought then
      pyStrip ((pySplit kAction ((pySplit kThought responseText).getD 1 [])).getD 0 [])
    else []
  let action :=
    if hasSub responseText kAction then
      pyStrip ((pySplit kInput ((pySplit kAction responseText).getD 1 [])).getD 0 [])
    else ("FINISH").toList
  let actionInput :=
    if hasSub responseText kInput then
      pyStrip ((pySplit kInput responseText).getD 1 [])
    else []
  (thought, action, actionInput)

/-! ## The web-research ReAct loop

`web_research.py` lines 106–193: `max_iterations = 8`,
`min_results = 15`, result cap `30`, Tavily called with
`max_results=7`. -/

inductive ExitReason where
  | finish
  | cap
  | exhausted
deriving DecidableEq, Repr

structure LoopResult where
  steps : List ReActStep
  results : List SearchResult
  reason : ExitReason
deriving Repr

/-- Fallback query synthesized by the forced-continuation rule of
`web_research.py` (lines 150–151). -/
def webFallbackQuery (paperTitle : List Char) (domainTags : List (List Char)) : List Char :=
  if paperTitle ≠ [] then paperTitle ++ (" related work").toList
  else ("recent work ").toList ++ pyJoin (" ").toList (domainTags.take 3)

/-- How one loop iteration branched: it executed a search (appending
the deduplicated batch), it hit the FINISH break, or it fell through
both branches (action unusable — no query, or unknown action). -/
inductive StepOutcome where
  | search (step : ReActStep) (newResults : List SearchResult)
  | finish (step : ReActStep)
  | noop (step : ReActStep)
deriving Repr

/-- One iteration of the web-research ReAct loop (`web_research.py`
lines 107–190): parse, apply the forced-continuation rule
(`min_results = 15`), then run the search / FINISH / fall-through
branch. -/
def webStep (llm : Nat → List Char) (tavily : List Char → Nat → List SearchResult)
    (paperTitle : List Char) (domainTags : List (List Char))
    (iteration : Nat) (results : List SearchResult) : StepOutcome :=
  let parsed := parseReact (llm iteration)
  let thought := parsed.1
  let action0 := parsed.2.1
  let input0 := parsed.2.2
  let forced := hasSub (pyUpper action0) (("FINISH").toList) && results.length < 15
  let action := if forced then ("web_search").toList else action0
  let actionInput :=
    if forced && input0 = [] then webFallbackQuery paperTitle domainTags else input0
  if hasSub (pyLower action) (("web_search").toList) && actionInput ≠ [] then
    let deduped := dedupeBatch (tavily actionInput 7)
    .search
      ⟨thought, action, actionInput,
        ("Found ").toList ++ natChars deduped.length ++ (" results").toList⟩
      deduped
  else if hasSub (pyUpper action) (("FINISH").toList) then
    .finish ⟨thought, action, actionInput, ("Search complete").toList⟩
  else
    .noop ⟨thought, action, actionInput, []⟩

/-- The `for iteration in range(8)` recursion of the web-research ReAct
loop: `remaining` counts iterations left, `iteration` is the Python
loop index (indexing the LLM oracle), `steps` is the trace in reverse
order.  After the search and fall-through branches the result cap
(`>= 30`) is checked; the FINISH branch breaks immediately. -/
def webLoopAux (llm : Nat → List Char) (tavily : List Char → Nat → List SearchResult)
    (paperTitle : List Char) (domainTags : List (List Char)) :
    Nat → Nat → List ReActStep → List SearchResult → LoopResult
  | 0, _, steps, results => ⟨steps.reverse, results, .exhausted⟩
  | remaining + 1, iteration, steps, results =>
    match webStep llm tavily paperTitle domainTags iteration results with
    | .search step newResults =>
      let results' := results ++ newResults
      if results'.length ≥ 30 then ⟨(step :: steps).reverse, results', .cap⟩
      else
        webLoopAux llm tavily paperTitle domainTags remaining (iteration + 1)
          (step :: steps) results'
    | .finish step => ⟨(step :: steps).reverse, results, .finish⟩
    | .noop step =>
      if results.length ≥ 30 then ⟨(step :: steps).reverse, results, .cap⟩
      else
        webLoopAux llm tavily paperTitle domainTags remaining (iteration + 1)
          (step :: steps) results

/-- The Phase-2 ReAct loop of `web_research_agent`, started on the
results already gathered by the Phase-1 citation searches. -/
def webResearchLoop (llm : Nat → List Char) (tavily : List Char → Nat → List SearchResult)
    (paperTitle : List Char) (domainTags : List (List Char))
    (initialResults : List SearchResult) : LoopResult :=
  webLoopAux llm tavily paperTitle domainTags 8 0 [] initialResults

/-! ## The comparative-analysis ReAct loop

`comparative_analysis.py` lines 98–205: `max_iterations = 5`,
`min_comparison_papers = 5`, result cap `15`, Tavily called with
`max_results=5`, and the collected list is seeded with the web-research
stage's `retrieval_results` (`comparison_results = list(existing_results)`,
line 104). -/

/-- Fallback query of the comparative loop's forced-continuation rule
(`comparative_analysis.py` lines 160–165). -/
def compFallbackQuery (paperTitle : List Char) (citations : List (List Char)) : List Char :=
  match citations with
  | c :: _ => c ++ (" paper comparison").toList
  | [] => paperTitle ++ (" related work comparison").toList

/-- One iteration of the comparative-analysis ReAct loop
(`comparative_analysis.py` lines 117–200): parse, apply the
forced-continuation rule (`min_comparison_papers = 5`), then run the
search / FINISH / fall-through branch.  The in-place `seen`-set
filtering of lines 172–179 appends exactly the batch deduplicated by
`dedupeBatch` (fresh `seen` per iteration); the observation reports the
raw batch size. -/
def compStep (llm : Nat → List Char) (tavily : List Char → Nat → List SearchResult)
    (paperTitle : List Char) (citations : List (List Char))
    (iteration : Nat) (results : List SearchResult) : StepOutcome :=
  let parsed := parseReact (llm iteration)
  let thought := parsed.1
  let action0 := parsed.2.1
  let input0 := parsed.2.2
  let forced := hasSub (pyUpper action0) (("FINISH").toList) && results.length < 5
  let action := if forced then ("web_search").toList else action0
  let actionInput :=
    if forced && input0 = [] then compFallbackQuery paperTitle citations else input0
  if hasSub (pyLower action) (("web_search").toList) && actionInput ≠ [] then
    let batch := tavily actionInput 5
    .search
      ⟨thought, action, actionInput,
        ("Found ").toList ++ natChars batch.length ++ (" results").toList⟩
      (dedupeBatch batch)
  else if hasSub (pyUpper action) (("FINISH").toList) then
    .finish
      ⟨thought, action, actionInput, ("Comparison data collection complete").toList⟩
  else
    .noop ⟨thought, action, actionInput, []⟩

/-- The `for iteration in range(5)` recursion of the comparative
ReAct loop, with the result cap (`>= 15`) checked after the search and
fall-through branches. -/
def compLoopAux (llm : Nat → List Char) (tavily : List Char → Nat → List SearchResult)
    (paperTitle : List Char) (citations : List (List Char)) :
    Nat → Nat → List ReActStep → List SearchResult → LoopResult
  | 0, _, steps, results => ⟨steps.reverse, results, .exhausted⟩
  | remaining + 1, iteration, steps, results =>
    match compStep llm tavily paperTitle citations iteration results with
    | .search step newResults =>
      let results' := results ++ newResults
      if results'.length ≥ 15 then ⟨(step :: steps).reverse, results', .cap⟩
      else
        compLoopAux llm tavily paperTitle citations remaining (iteration + 1)
          (step :: steps) results'
    | .finish step => ⟨(step :: steps).reverse, results, .finish⟩
    | .noop step =>
      if results.length ≥ 15 then ⟨(step :: steps).reverse, results, .cap⟩
      else
        compLoopAux llm tavily paperTitle citations remaining (iteration + 1)
          (step :: steps) results

/-- The comparative-analysis ReAct loop, seeded with the prior
web-research `retrieval_results`. -/
def comparativeLoop (llm : Nat → List Char) (tavily : List Char → Nat → List SearchResult)
    (paperTitle : List Char) (citations : List (List Char))
    (existingResults : List SearchResult) : LoopResult :=
  compLoopAux llm tavily paperTitle citations 5 0 [] existingResults

/-! ## JSON values and parsing

`safe_structured_output.py` manipulates JSON text via Python's
`json.loads` / `json.dumps`.  We embed a JSON value type and an
executable parser modelling `json.loads` (objects are kept as
association lists in first-insertion order with last-value-wins for
duplicate keys, mirroring Python's `dict`). -/

inductive Json where
  | null : Json
  | bool (b : Bool) : Json
  | num (q : Rat) : Json
  | str (s : List Char) : Json
  | arr (xs : List Json) : Json
  | obj (kvs : List (List Char × Json)) : Json

/-- JSON structural whitespace accepted by `json.loads`. -/
def isJsonWs (c : Char) : Bool :=
  c = ' ' || c = '\t' || c = '\n' || c = '\r'

def skipWs (s : List Char) : List Char := s.dropWhile isJsonWs

def hexVal (c : Char) : Option Nat :=
  if '0' ≤ c ∧ c ≤ '9' then some (c.toNat - 48)
  else if 'a' ≤ c ∧ c ≤ 'f' then some (c.toNat - 87)
  else if 'A' ≤ c ∧ c ≤ 'F' then some (c.toNat - 70)
  else none

/-- Parse the body of a JSON string literal (after the opening quote),
handling the escape sequences accepted by `json.loads`. -/
def parseStrBody : Nat → List Char → List Char → Option (List Char × List Char)
  | 0, _, _ => none
  | _ + 1, [], _ => none
  | fuel + 1, c :: t, acc =>
    if c = '"' then some (acc.reverse, t)
    else if c = '\\' then
      match t with
      | [] => none
      | e :: t2 =>
        if e = '"' then parseStrBody fuel t2 ('"' :: acc)
        else if e = '\\' then parseStrBody fuel t2 ('\\' :: acc)
        else if e = '/' then parseStrBody fuel t2 ('/' :: acc)
        else if e = 'b' then parseStrBody fuel t2 ('\x08' :: acc)
        else if e = 'f' then parseStrBody fuel t2 ('\x0c' :: acc)
        else if e = 'n' then parseStrBody fuel t2 ('\n' :: acc)
        else if e = 'r' then parseStrBody fuel t2 ('\r' :: acc)
        else if e = 't' then parseStrBody fuel t2 ('\t' :: acc)
        else if e = 'u' then
          match t2 with
          | h1 :: h2 :: h3 :: h4 :: t3 =>
            match hexVal h1, hexVal h2, hexVal h3, hexVal h4 with
            | some a, some b, some cc, some d =>
              parseStrBody fuel t3 (Char.ofNat (((a * 16 + b) * 16 + cc) * 16 + d) :: acc)
            | _, _, _, _ => none
          | _ => none
        else none
    else parseStrBody fuel t (c :: acc)

def isDigitChar (c : Char) : Bool := '0' ≤ c && c ≤ '9'

def digitsToNat (ds : List Char) : Nat :=
  ds.foldl (fun a c => a * 10 + (c.toNat - 48)) 0

/-- Parse a JSON number into a rational (model of Python's `int`/`float`
number semantics; leading-zero restrictions are not enforced). -/
def parseNumber (s : List Char) : Option (Rat × List Char) :=
  let signNeg := s.headD ' ' = '-'
  let s1 := if signNeg then s.drop 1 else s
  let intDigits := s1.takeWhile isDigitChar
  let s2 := s1.drop intDigits.length
  if intDigits = [] then none
  else
    let fracDigits := if s2.headD ' ' = '.' then (s2.drop 1).takeWhile isDigitChar else []
    let s3 := if s2.headD ' ' = '.' then (s2.drop 1).drop fracDigits.length else s2
    if s2.headD ' ' = '.' ∧ fracDigits = [] then none
    else
      let hasExp := s3.headD ' ' = 'e' ∨ s3.headD ' ' = 'E'
      let s4 := if hasExp then s3.drop 1 else s3
      let expNeg := hasExp ∧ s4.headD ' ' = '-'
      let expPos := hasExp ∧ s4.headD ' ' = '+'
      let s5 := if expNeg ∨ expPos then s4.drop 1 else s4
      let expDigits := if hasExp then s5.takeWhile isDigitChar else []
      let s6 := s5.drop expDigits.length
      if hasExp ∧ expDigits = [] then none
      else
        let mantissa : Rat :=
          (digitsToNat intDigits : Rat) +
            (digitsToNat fracDigits : Rat) / ((10 : Rat) ^ fracDigits.length)
        let signed := if signNeg then -mantissa else mantissa
        let e := digitsToNat expDigits
        let valued := if expNeg then signed / ((10 : Rat) ^ e) else signed * ((10 : Rat) ^ e)
        some (valued, if hasExp then s6 else s3)

/-- Insert a key/value pair into an object association list with
Python-`dict` semantics: an existing key keeps its position but gets the
new value; a new key is appended. -/
def objInsert (kvs : List (List Char × Json)) (k : List Char) (v : Json) :
    List (List Char × Json) :=
  match kvs with
  | [] => [(k, v)]
  | (k', v') :: t => if k' = k then (k', v) :: t else (k', v') :: objInsert t k v

/-- Fold a member list (in textual order) into a Python-`dict`-style
association list: first occurrence fixes the position, the last value
for a key wins. -/
def buildDict (pairs : List (List Char × Json)) : List (List Char × Json) :=
  pairs.foldl (fun acc kv => objInsert acc kv.1 kv.2) []

mutual

/-- Parse one JSON value (model of `json.loads`'s recursive-descent
core).  Fuel-based: callers supply fuel exceeding twice the input
length, which is always sufficient. -/
def parseVal : Nat → List Char → Option (Json × List Char)
  | 0, _ => none
  | fuel + 1, s =>
    let s' := skipWs s
    match s' with
    | [] => none
    | c :: t =>
      if c = '"' then
        match parseStrBody (t.length + 1) t [] with
        | some (body, rest) => some (.str body, rest)
        | none => none
      else if c = '[' then
        match skipWs t with
        | ']' :: r => some (.arr [], r)
        | u =>
          match parseItems fuel u with
          | some (items, rest) => some (.arr items, rest)
          | none => none
      else if c = '{' then
        match skipWs t with
        | '}' :: r => some (.obj [], r)
        | u =>
          match parseMembers fuel u with
          | some (kvs, rest) => some (.obj (buildDict kvs), rest)
          | none => none
      else if (("true").toList).isPrefixOf s' then some (.bool true, s'.drop 4)
      else if (("false").toList).isPrefixOf s' then some (.bool false, s'.drop 5)
      else if (("null").toList).isPrefixOf s' then some (.null, s'.drop 4)
      else
        match parseNumber s' with
        | some (q, rest) => some (.num q, rest)
        | none => none

/-- Parse the comma-separated items of a (non-empty) JSON array,
including the closing bracket. -/
def parseItems : Nat → List Char → Option (List Json × List Char)
  | 0, _ => none
  | fuel + 1, s =>
    match parseVal fuel s with
    | none => none
    | some (v, rest) =>
      match skipWs rest with
      | ',' :: r =>
        match parseItems fuel r with
        | some (vs, rest') => some (v :: vs, rest')
        | none => none
      | ']' :: r => some ([v], r)
      | _ => none

/-- Parse the members of a (non-empty) JSON object, including the
closing brace; duplicate keys resolve last-value-wins via `objInsert`. -/
def parseMembers : Nat → List Char → Option (List (List Char × Json) × List Char)
  | 0, _ => none
  | fuel + 1, s =>
    match skipWs s with
    | '"' :: t =>
      match parseStrBody (t.length + 1) t [] with
      | none => none
      | some (k, rest) =>
        match skipWs rest with
        | ':' :: r =>
          match parseVal fuel r with
          | none => none
          | some (v, rest2) =>
            match skipWs rest2 with
            | ',' :: r2 =>
              match parseMembers fuel r2 with
              | some (kvs, rest3) => some ((k, v) :: kvs, rest3)
              | none => none
            | '}' :: r2 => some ([(k, v)], r2)
            | _ => none
        | _ => none
    | _ => none

end

/-- Model of Python `json.loads`: parse one value, then require only
trailing whitespace. -/
def jsonParse (s : List Char) : Option Json :=
  match parseVal (2 * s.length + 4) s with
  | some (v, rest) => if skipWs rest = [] then some v else none
  | none => none

/-! ## `repair_json` (`backend/utils/safe_structured_output.py` 28–78)

Each `re.sub` call is embedded as a deterministic scanner: at every
position the pattern either matches (consuming at least one character)
or the character is copied.  All the patterns of `repair_json` are
backtracking-free (their character classes are disjoint from the
required delimiters), so maximal-munch scanning is exact. -/

/-- Generic `re.sub`: scan left to right, replacing every
non-overlapping leftmost match.  `m` returns the replacement text and
the remaining input after the match. -/
def reSubAux (m : List Char → Option (List Char × List Char)) :
    Nat → List Char → List Char
  | 0, s => s
  | _ + 1, [] => []
  | fuel + 1, c :: t =>
    match m (c :: t) with
    | some (r, rest) => r ++ reSubAux m fuel rest
    | none => c :: reSubAux m fuel t

/-- Every matcher used here consumes at least one character, so fuel
`s.length + 1` never runs out. -/
def reSub (m : List Char → Option (List Char × List Char)) (s : List Char) : List Char :=
  reSubAux m (s.length + 1) s

/-- Fix 1 pattern `\*\*([^*]+)\*\*\s*:` with replacement `"\1":`. -/
def matchBoldKey (s : List Char) : Option (List Char × List Char) :=
  match s with
  | c1 :: c2 :: rest =>
    if c1 = '*' ∧ c2 = '*' then
      let grp := rest.takeWhile (fun c => c != '*')
      if grp = [] then none
      else
        match rest.drop grp.length with
        | d1 :: d2 :: rest3 =>
          if d1 = '*' ∧ d2 = '*' then
            let ws := rest3.takeWhile isPySpace
            match rest3.drop ws.length with
            | e1 :: rest5 =>
              if e1 = ':' then some ('"' :: grp ++ ['"', ':'], rest5) else none
            | [] => none
          else none
        | _ => none
    else none
  | _ => none

/-- Fix 2 pattern `:\s*\*\*([^*"]+)\*\*([,}\]\n])` with replacement
`: "\1"\2`. -/
def matchBoldValue (s : List Char) : Option (List Char × List Char) :=
  match s with
  | c1 :: rest =>
    if c1 = ':' then
      let ws := rest.takeWhile isPySpace
      match rest.drop ws.length with
      | d1 :: d2 :: rest3 =>
        if d1 = '*' ∧ d2 = '*' then
          let grp := rest3.takeWhile (fun c => c != '*' && c != '"')
          if grp = [] then none
          else
            match rest3.drop grp.length with
            | e1 :: e2 :: d :: rest6 =>
              if e1 = '*' ∧ e2 = '*' ∧ (d = ',' ∨ d = '}' ∨ d = ']' ∨ d = '\n') then
                some (':' :: ' ' :: '"' :: grp ++ ['"', d], rest6)
              else none
            | _ => none
        else none
      | _ => none
    else none
  | [] => none

def identStart (c : Char) : Bool :=
  ('a' ≤ c && c ≤ 'z') || ('A' ≤ c && c ≤ 'Z') || c = '_'

def identCont (c : Char) : Bool := identStart c || isDigitChar c

/-- Fix 3 pattern `([{,]\s*)([a-zA-Z_][a-zA-Z0-9_]*)\s*:` with
replacement `\1"\2":`. -/
def matchUnquotedKey (s : List Char) : Option (List Char × List Char) :=
  match s with
  | c0 :: rest =>
    if c0 = '{' ∨ c0 = ',' then
      let ws1 := rest.takeWhile isPySpace
      match rest.drop ws1.length with
      | i0 :: rest3 =>
        if identStart i0 then
          let identRest := rest3.takeWhile identCont
          let ws2 := (rest3.drop identRest.length).takeWhile isPySpace
          match (rest3.drop identRest.length).drop ws2.length with
          | ':' :: rest6 =>
            some (c0 :: ws1 ++ '"' :: i0 :: identRest ++ ['"', ':'], rest6)
          | _ => none
        else none
      | [] => none
    else none
  | [] => none

/-- Fix 4 pattern `,(\s*[}\]])` with replacement `\1`. -/
def matchTrailingComma (s : List Char) : Option (List Char × List Char) :=
  match s with
  | c1 :: rest =>
    if c1 = ',' then
      let ws := rest.takeWhile isPySpace
      match rest.drop ws.length with
      | d :: rest3 =>
        if d = '}' ∨ d = ']' then some (ws ++ [d], rest3) else none
      | [] => none
    else none
  | [] => none

def apos : Char := Char.ofNat 39

def nbHyphen : Char := Char.ofNat 0x2011

def enDash : Char := Char.ofNat 0x2013

def emDash : Char := Char.ofNat 0x2014

/-- Embedding of `repair_json` (lines 28–78): the six textual fixes applied in
order.  Fix 5 replaces single quotes by double quotes only when the
text contains a single quote and no double quote; Fix 6 replaces the
three unicode dash variants by `-` everywhere (three successive
`str.replace` calls, equivalent to one combined character map). -/
def repair_json (s : List Char) : List Char :=
  if s = [] then s
  else
    let r1 := reSub matchBoldKey s
    let r2 := reSub matchBoldValue r1
    let r3 := reSub matchUnquotedKey r2
    let r4 := reSub matchTrailingComma r3
    let r5 :=
      if ¬ ('"' ∈ r4) ∧ apos ∈ r4 then
        r4.map (fun c => if c = apos then '"' else c)
      else r4
    r5.map (fun c => if c = nbHyphen ∨ c = enDash ∨ c = emDash then '-' else c)

/-- Characters that none of the textual fixes of `repair_json` can
engage with: no markdown asterisk, single quote, unquoted-key/comma
trigger, or unicode dash variant. -/
def safeRepairChar (c : Char) : Bool :=
  !(c = '*' || c = apos || c = '{' || c = ',' ||
    c = nbHyphen || c = enDash || c = emDash)

/-! ## `json.dumps` model (used by `extract_arguments_from_tool_call`) -/

def hexDigit (n : Nat) : Char :=
  if n < 10 then Char.ofNat (48 + n) else Char.ofNat (87 + n)

/-- Escape one character for a JSON string literal (control characters
as `\u00XX`; non-ASCII characters are left unescaped, a benign
deviation from `ensure_ascii=True`). -/
def escapeJsonChar (c : Char) : List Char :=
  if c = '"' then ['\\', '"']
  else if c = '\\' then ['\\', '\\']
  else if c = '\n' then ['\\', 'n']
  else if c = '\r' then ['\\', 'r']
  else if c = '\t' then ['\\', 't']
  else if c = '\x08' then ['\\', 'b']
  else if c = '\x0c' then ['\\', 'f']
  else if c.toNat < 32 then
    ['\\', 'u', '0', '0', hexDigit (c.toNat / 16), hexDigit (c.toNat % 16)]
  else [c]

def escapeJsonStr (s : List Char) : List Char :=
  s.foldr (fun c acc => escapeJsonChar c ++ acc) []

/-- Smallest exponent making a rational decimal-representable (always
exists for values produced by `parseNumber`). -/
def decExp (q : Rat) : Option Nat :=
  (List.range 40).find? (fun k => decide ((q * (10 : Rat) ^ k).den = 1))

/-- Decimal rendering of a JSON number. -/
def ratChars (q : Rat) : List Char :=
  if q.den = 1 then (Int.repr q.num).toList
  else
    match decExp q with
    | some k =>
      let n := (q * (10 : Rat) ^ k).num
      let ds := (Nat.repr n.natAbs).toList
      let padded := if ds.length ≤ k then List.replicate (k + 1 - ds.length) '0' ++ ds else ds
      (if n < 0 then ['-'] else []) ++
        padded.take (padded.length - k) ++ '.' :: padded.drop (padded.length - k)
    | none => ['0']

mutual

/-- Model of `json.dumps` with Python's default separators. -/
def jsonDumps : Json → List Char
  | .null => ("null").toList
  | .bool true => ("true").toList
  | .bool false => ("false").toList
  | .num q => ratChars q
  | .str s => '"' :: escapeJsonStr s ++ ['"']
  | .arr xs => '[' :: jsonDumpsItems xs ++ [']']
  | .obj kvs => '{' :: jsonDumpsMembers kvs ++ ['}']

def jsonDumpsItems : List Json → List Char
  | [] => []
  | [x] => jsonDumps x
  | x :: y :: t => jsonDumps x ++ (", ").toList ++ jsonDumpsItems (y :: t)

def jsonDumpsMembers : List (List Char × Json) → List Char
  | [] => []
  | [(k, v)] => '"' :: escapeJsonStr k ++ ['"', ':', ' '] ++ jsonDumps v
  | (k, v) :: m :: t =>
    '"' :: escapeJsonStr k ++ ['"', ':', ' '] ++ jsonDumps v ++ (", ").toList ++
      jsonDumpsMembers (m :: t)

end

/-! ## `extract_json_from_error` (`safe_structured_output.py` 81–100) -/

/-- The literal `'failed_generation':` of the Groq error pattern
`'failed_generation':\s*'(.+?)'\s*\}`. -/
def kFailedGenQuoted : List Char :=
  apos :: ("failed_generation").toList ++ [apos, ':']

/-- Does `s` start with `'\s*}` (the closing part of the Groq
pattern)? -/
def groqCloseAt (s : List Char) : Bool :=
  match s with
  | c :: t => c = apos && (t.dropWhile isPySpace).headD ' ' = '}'
  | [] => false

/-- Lazy `(.+?)`: the shortest non-empty content prefix after which
`'\s*}` matches. -/
def lazyGroqContent (accRev : List Char) : List Char → Option (List Char × List Char)
  | [] => none
  | c :: t =>
    if groqCloseAt t then some ((c :: accRev).reverse, t)
    else lazyGroqContent (c :: accRev) t

/-- Model of `re.search` of the Groq pattern: leftmost starting occurrence of
the literal, then whitespace, an opening quote, and the lazily-matched
content. -/
def findGroqMatch : List Char → Option (List Char)
  | [] => none
  | s@(_ :: t) =>
    if kFailedGenQuoted.isPrefixOf s then
      match (s.drop kFailedGenQuoted.length).dropWhile isPySpace with
      | q :: u =>
        if q = apos then
          match lazyGroqContent [] u with
          | some (content, _) => some content
          | none => findGroqMatch t
        else findGroqMatch t
      | [] => findGroqMatch t
    else findGroqMatch t

/-- Brace-balanced (one level of nesting) JSON fragment matcher for the
pattern `\{[^{}]*(?:\{[^{}]*\}[^{}]*)*\}`, applied at the current
position. -/
def braceLoopAux : Nat → List Char → List Char → Option (List Char × List Char)
  | 0, _, _ => none
  | fuel + 1, acc, remaining =>
    match remaining with
    | '}' :: r => some (acc ++ ['}'], r)
    | '{' :: r =>
      let inner := r.takeWhile (fun c => c != '{' && c != '}')
      match r.drop inner.length with
      | '}' :: r2 =>
        let tl := r2.takeWhile (fun c => c != '{' && c != '}')
        braceLoopAux fuel (acc ++ '{' :: inner ++ '}' :: tl) (r2.drop tl.length)
      | _ => none
    | _ => none

def braceMatchAt (s : List Char) : Option (List Char × List Char) :=
  match s with
  | '{' :: t =>
    let seg := t.takeWhile (fun c => c != '{' && c != '}')
    braceLoopAux (t.length + 1) ('{' :: seg) (t.drop seg.length)
  | _ => none

/-- Model of `re.findall` of the brace pattern: leftmost, non-overlapping. -/
def findAllBrace : Nat → List Char → List (List Char)
  | 0, _ => []
  | _ + 1, [] => []
  | fuel + 1, s@(_ :: t) =>
    match braceMatchAt s with
    | some (m, rest) => m :: findAllBrace fuel rest
    | none => findAllBrace fuel t

/-- Python `max(matches, key=len)`: first element of maximal length. -/
def maxByLen (ms : List (List Char)) : Option (List Char) :=
  ms.foldl
    (fun acc m =>
      match acc with
      | none => some m
      | some b => if m.length > b.length then some m else some b)
    none

/-- Embedding of `extract_json_from_error`: try the Groq `failed_generation`
pattern first, then fall back to the longest brace-delimited fragment
anywhere in the message. -/
def extract_json_from_error (errorMessage : List Char) : Option (List Char) :=
  match findGroqMatch errorMessage with
  | some g => some g
  | none => maxByLen (findAllBrace (errorMessage.length + 1) errorMessage)

/-! ## `extract_arguments_from_tool_call` (`safe_structured_output.py`
103–123) -/

def objLookup (kvs : List (List Char × Json)) (k : List Char) : Option Json :=
  (kvs.find? (fun kv => kv.1 = k)).map (fun kv => kv.2)

def kArgumentsQuoted : List Char := '"' :: ("arguments").toList ++ ['"']

/-- Scan for `"arguments"\s*:\s*\{` inside `body` (whose last character
is the group-closing brace); the greedy group `(\{.+\})` then extends to
the end of `body`. -/
def findArgsStart : List Char → Option (List Char)
  | [] => none
  | s@(_ :: t) =>
    if kArgumentsQuoted.isPrefixOf s then
      match (s.drop kArgumentsQuoted.length).dropWhile isPySpace with
      | ':' :: u2 =>
        let u3 := u2.dropWhile isPySpace
        match u3 with
        | '{' :: _ =>
          if u3.length ≥ 3 ∧ u3.getLast? = some '}' then some u3
          else findArgsStart t
        | _ => findArgsStart t
      | _ => findArgsStart t
    else findArgsStart t

/-- Model of `re.search` of `"arguments"\s*:\s*(\{.+\})\s*\}$` with `DOTALL`:
the string must end in `}` preceded (after the greedy group) by only
whitespace; the group runs from the first matching `{` to the last
brace before that tail. -/
def argsPatternSearch (s : List Char) : Option (List Char) :=
  match s.reverse with
  | '}' :: restRev =>
    let ws := restRev.takeWhile isPySpace
    match restRev.drop ws.length with
    | '}' :: _ => findArgsStart (s.take (s.length - 1 - ws.length))
    | _ => none
  | _ => none

/-- Embedding of `extract_arguments_from_tool_call`: parse the string; if it is an
object with an `arguments` member, return that member re-serialized;
otherwise (parse failure included) try the manual regex. -/
def extract_arguments_from_tool_call (jsonStr : List Char) : Option (List Char) :=
  match jsonParse jsonStr with
  | some (.obj kvs) =>
    match objLookup kvs (("arguments").toList) with
    | some v => some (jsonDumps v)
    | none => argsPatternSearch jsonStr
  | _ => argsPatternSearch jsonStr

/-! ## `parse_with_repair` and `safe_structured_invoke`
(`safe_structured_output.py` 126–235)

The Pydantic schema is modelled as a validation oracle
`validate : Json → Option T` (`schema.model_validate`: `some` on
success, `none` for `ValidationError`); the structured LLM call is an
oracle `attempts : Nat → Except (List Char) T` giving, per attempt
index, either the validated instance or the raised error message. -/

/-- Embedding of `parse_with_repair`: up to `max_repair_attempts` rounds of
`json.loads` + validation, re-repairing the text on each JSON decode
error; a validation error breaks immediately.  `none` models the final
`JSONRepairError`. -/
def parse_with_repair {T : Type} (validate : Json → Option T) :
    Nat → List Char → Option T
  | 0, _ => none
  | attempts + 1, cur =>
    match jsonParse cur with
    | some data => validate data
    | none => parse_with_repair validate attempts (repair_json cur)

def kFailedGeneration : List Char := ("failed_generation").toList

def kFailedToParse : List Char := ("Failed to parse").toList

/-- The retry loop of `safe_structured_invoke`: `remaining` attempts
left, `attempt` the current index, `lastErr` the last raised message. -/
def safeInvokeAux {T : Type} (attempts : Nat → Except (List Char) T)
    (validate : Json → Option T) (fallback : Option T) :
    Nat → Nat → List Char → Except (List Char) T
  | 0, _, lastErr =>
    match fallback with
    | some f => .ok f
    | none => .error lastErr
  | remaining + 1, attempt, _ =>
    match attempts attempt with
    | .ok t => .ok t
    | .error e =>
      if hasSub e kFailedGeneration || hasSub e kFailedToParse then
        match extract_json_from_error e with
        | some failedJson =>
          let argumentsJson := extract_arguments_from_tool_call failedJson
          let jsonToRepair := argumentsJson.getD failedJson
          match parse_with_repair validate 3 (repair_json jsonToRepair) with
          | some t => .ok t
          | none => safeInvokeAux attempts validate fallback remaining (attempt + 1) e
        | none => safeInvokeAux attempts validate fallback remaining (attempt + 1) e
      else safeInvokeAux attempts validate fallback remaining (attempt + 1) e

/-- Embedding of `safe_structured_invoke` (lines 161–235): `max_retries + 1`
attempts; on exhaustion return the fallback when supplied, else
re-raise the last error. -/
def safe_structured_invoke {T : Type} (attempts : Nat → Except (List Char) T)
    (validate : Json → Option T) (maxRetries : Nat) (fallback : Option T) :
    Except (List Char) T :=
  safeInvokeAux attempts validate fallback (maxRetries + 1) 0 []

/-! ## Section detection (`SAS_HAS_processor.py` 109–242)

The regex patterns of `SECTION_PATTERNS` are word-bounded literal
phrases (plus one `\s*` in `\b1\.\s*introduction\b`).  We embed them as
token lists matched with maximal-munch scanning (exact for these
patterns, which are backtracking-free), wrapped in `\b` boundary checks
on both sides. -/

inductive PatTok where
  | lit (c : Char)
  | wsStar
deriving DecidableEq, Repr

def isWordChar (c : Char) : Bool := identCont c

/-- Match a token sequence at the current position, returning the rest
of the input on success. -/
def matchToks : List PatTok → List Char → Option (List Char)
  | [], s => some s
  | .lit c :: ps, s =>
    match s with
    | c' :: t => if c' = c then matchToks ps t else none
    | [] => none
  | .wsStar :: ps, s => matchToks ps (s.dropWhile isPySpace)

/-- Model of `re.search(r'\b' + toks + r'\b', s)`: the patterns start and end
with word characters, so the boundaries reduce to "preceded by
start-of-string or a non-word character" and "followed by
end-of-string or a non-word character". -/
def patSearchAux (pat : List PatTok) : Option Char → List Char → Bool
  | prev, s =>
    (decide (prev = none) || !isWordChar (prev.getD ' ')) &&
        (match matchToks pat s with
         | some rest => rest.isEmpty || !isWordChar (rest.headD ' ')
         | none => false) ||
      (match s with
       | [] => false
       | c :: t => patSearchAux pat (some c) t)

def patSearch (pat : List PatTok) (s : List Char) : Bool :=
  patSearchAux pat none s

def litPat (w : List Char) : List PatTok := w.map PatTok.lit

/-- Embedding of `SECTION_PATTERNS`: section type, regex pattern list, importance
weight, in the dictionary's insertion order (Python 3.7+ dicts iterate
in insertion order, and the detector takes the first matching type). -/
def SECTION_PATTERNS : List (List Char × List (List PatTok) × Rat) :=
  [ (("abstract").toList,
      [litPat (("abstract").toList), litPat (("summary").toList)], 1),
    (("introduction").toList,
      [litPat (("introduction").toList),
       PatTok.lit '1' :: PatTok.lit '.' :: PatTok.wsStar ::
         litPat (("introduction").toList)], (0.95 : Rat)),
    (("related_work").toList,
      [litPat (("related work").toList), litPat (("prior work").toList),
       litPat (("literature review").toList)], (0.7 : Rat)),
    (("background").toList,
      [litPat (("background").toList), litPat (("preliminaries").toList)], (0.75 : Rat)),
    (("methodology").toList,
      [litPat (("methodology").toList), litPat (("method").toList),
       litPat (("approach").toList), litPat (("model").toList),
       litPat (("architecture").toList)], 1),
    (("experiments").toList,
      [litPat (("experiments").toList), litPat (("experimental setup").toList),
       litPat (("evaluation").toList)], (0.95 : Rat)),
    (("results").toList,
      [litPat (("results").toList), litPat (("findings").toList),
       litPat (("performance").toList)], 1),
    (("discussion").toList,
      [litPat (("discussion").toList), litPat (("analysis").toList)], (0.85 : Rat)),
    (("conclusion").toList,
      [litPat (("conclusion").toList), litPat (("concluding remarks").toList)], (0.9 : Rat)),
    (("limitations").toList,
      [litPat (("limitations").toList), litPat (("weaknesses").toList)], (0.8 : Rat)),
    (("future_work").toList,
      [litPat (("future work").toList), litPat (("future directions").toList)],
      (0.75 : Rat)) ]

/-- The header test of `detect_sections` (lines 190–201): the line is
lowercased and stripped for the regex search, and the stripped line
must be shorter than 100 characters; the first matching section type
(in `SECTION_PATTERNS` order) wins. -/
def detectType (line : List Char) : Option (List Char) :=
  (SECTION_PATTERNS.find?
      (fun e =>
        e.2.1.any (fun p => patSearch p (pyStrip (pyLower line))) &&
          decide ((pyStrip line).length < 100))).map
    (fun e => e.1)

/-- Python `str.split()` with no arguments: maximal non-whitespace
runs (used for `word_count`). -/
def pyWordsAux : List Char → List Char → List (List Char)
  | [], cur => if cur = [] then [] else [cur.reverse]
  | c :: t, cur =>
    if isPySpace c then
      if cur = [] then pyWordsAux t [] else cur.reverse :: pyWordsAux t []
    else pyWordsAux t (c :: cur)

def pyWords (s : List Char) : List (List Char) := pyWordsAux s []

structure Section where
  type : List Char
  title : List Char
  content : List Char
  start_position : Nat
  word_count : Nat
  importance : Rat
deriving DecidableEq, Repr

def importanceOf (ty : List Char) : Rat :=
  ((SECTION_PATTERNS.find? (fun e => e.1 = ty)).map (fun e => e.2.2)).getD 0

/-- Close the accumulating section (lines 204–214 / 227–236):
`content` is the accumulated line list in reverse order. -/
def mkSection (ty title : List Char) (start : Nat) (contentRev : List (List Char)) :
    Section :=
  let content_text := pyJoin ['\n'] contentRev.reverse
  { type := ty, title := title, content := content_text, start_position := start,
    word_count := (pyWords content_text).length, importance := importanceOf ty }

/-- The line scanner of `detect_sections`: `cur` is the open section
header (type, title, start line index), `contentRev` the accumulated
content lines (reversed), `accRev` the emitted sections (reversed). -/
def detectSectionsAux :
    Nat → List (List Char) → Option (List Char × List Char × Nat) →
      List (List Char) → List Section → List Section
  | _, [], cur, contentRev, accRev =>
    (match cur with
     | some (ty, title, start) =>
       if contentRev ≠ [] then mkSection ty title start contentRev :: accRev else accRev
     | none => accRev).reverse
  | i, line :: rest, cur, contentRev, accRev =>
    match detectType line with
    | some ty =>
      let accRev' :=
        match cur with
        | some (cty, ctitle, cstart) =>
          if contentRev ≠ [] then mkSection cty ctitle cstart contentRev :: accRev
          else accRev
        | none => accRev
      detectSectionsAux (i + 1) rest (some (ty, pyStrip line, i)) [] accRev'
    | none =>
      match cur with
      | some _ => detectSectionsAux (i + 1) rest cur (line :: contentRev) accRev
      | none => detectSectionsAux (i + 1) rest none contentRev accRev

/-- Embedding of `SectionAwareSummarizer.detect_sections` (lines 179–242). -/
def detect_sections (paper_content : List Char) : List Section :=
  detectSectionsAux 0 (pySplit ['\n'] paper_content) none [] []

/-! ## Hierarchical summarization (`SAS_HAS_processor.py` 422–590)

The LLM is an external collaborator; each of the three level builders
is passed an oracle taking exactly the (truncated) template variables
that the Python code feeds into the prompt. -/

structure SectionSummary where
  section_id : List Char
  section_type : List Char
  section_title : List Char
  executive_summary : List Char
  detailed_summary : List Char
  key_points : List (List Char)
  methodological_details : List (List Char)
  empirical_findings : List (List Char)
  technical_terms : List (List Char)
  citations_mentioned : List (List Char)
  related_sections : List (List Char)
  information_density : Rat
  novelty_score : Rat
deriving DecidableEq, Repr

structure HierarchicalLevel where
  level : Nat
  summary : List Char
  key_contributions : List (List Char)
  scope : Option (List Char)
deriving DecidableEq, Repr

/-- The three LLM calls of the hierarchical summarizer, as oracles over
the concrete template variables fed by the Python code. -/
structure HasLLM where
  level1Call : List Char → List Char → List Char
  level2Call : List Char → List Char → List Char → List Char
  level3Call : List Char → List Char → List Char → List Char

/-- Python `str(...)` of a list of strings (repr-style quoting,
single quotes; feeds the prompt only). -/
def pyReprStrList (xs : List (List Char)) : List Char :=
  '[' :: pyJoin ((", ").toList) (xs.map (fun x => apos :: x ++ [apos])) ++ [']']

/-- Aggregated `all_key_points` of `create_level1_summary`
(lines 445–449). -/
def allKeyPoints (section_summaries : List SectionSummary) : List (List Char) :=
  section_summaries.foldl (fun a s => a ++ s.key_points) []

/-- Embedding of `HierarchicalSummarizer.create_level1_summary` (lines 435–478). -/
def create_level1_summary (llm : HasLLM) (section_summaries : List SectionSummary) :
    HierarchicalLevel :=
  let all_key_points := allKeyPoints section_summaries
  let sections_text :=
    pyJoin (("\n\n").toList)
      (section_summaries.map
        (fun s => ("**").toList ++ pyUpper s.section_type ++ ("**: ").toList ++
          s.detailed_summary))
  let response :=
    llm.level1Call (sections_text.take 50000) (pyReprStrList (all_key_points.take 100))
  { level := 1, summary := response, key_contributions := all_key_points.take 50,
    scope := some (("Detailed section-level analysis with technical specifics").toList) }

/-- Embedding of `HierarchicalSummarizer.create_level2_summary` (lines 480–522). -/
def create_level2_summary (llm : HasLLM) (level1 : HierarchicalLevel)
    (section_summaries : List SectionSummary) : HierarchicalLevel :=
  let methodology_sections :=
    section_summaries.filter
      (fun s => s.section_type = ("methodology").toList ∨
        s.section_type = ("approach").toList ∨ s.section_type = ("model").toList)
  let results_sections :=
    section_summaries.filter
      (fun s => s.section_type = ("results").toList ∨
        s.section_type = ("experiments").toList)
  let methodology_text :=
    pyJoin ((" | ").toList) (methodology_sections.map (fun s => s.executive_summary))
  let results_text :=
    pyJoin ((" | ").toList) (results_sections.map (fun s => s.executive_summary))
  let response :=
    llm.level2Call (level1.summary.take 20000) (methodology_text.take 10000)
      (results_text.take 10000)
  { level := 2, summary := response, key_contributions := level1.key_contributions.take 20,
    scope := some (("Cross-section synthesis of contributions and findings").toList) }

/-- Embedding of `HierarchicalSummarizer.create_level3_summary` (lines 524–573). -/
def create_level3_summary (llm : HasLLM) (level2 : HierarchicalLevel)
    (section_summaries : List SectionSummary) : HierarchicalLevel :=
  let abstract_summary :=
    ((section_summaries.find? (fun s => s.section_type = ("abstract").toList)).map
        (fun s => s.executive_summary)).getD (("No abstract found").toList)
  let contributions :=
    ((section_summaries.find? (fun s => s.section_type = ("introduction").toList)).map
        (fun s => s.key_points)).getD []
  let response :=
    llm.level3Call abstract_summary (level2.summary.take 20000)
      (pyReprStrList (contributions.take 20))
  { level := 3, summary := response, key_contributions := level2.key_contributions.take 10,
    scope := some (("Executive overview for quick understanding").toList) }

/-- Embedding of `HierarchicalSummarizer.create_hierarchy` (lines 575–590). -/
def create_hierarchy (llm : HasLLM) (section_summaries : List SectionSummary) :
    List HierarchicalLevel :=
  let level1 := create_level1_summary llm section_summaries
  let level2 := create_level2_summary llm level1 section_summaries
  let level3 := create_level3_summary llm level2 section_summaries
  [level1, level2, level3]

/-! ## Final synthesis (`SAS_HAS_processor.py` 671–807) -/

structure ComprehensivePaperAnalysis where
  paper_title : List Char
  authors : List (List Char)
  publication_info : List Char
  hierarchical_summaries : List HierarchicalLevel
  section_summaries : List (List Char × List Char)
  abstract_summary : List Char
  contributions : List (List Char)
  methodology : Json
  datasets : List (List Char)
  experiments : List (List Char)
  results : Json
  limitations : List (List Char)
  future_work : List (List Char)
  technical_depth : List Char
  novelty : List Char
  domain_tags : List (List Char)
  code_resources : Json
  related_papers : List (List Char)
  citations : List (List Char)
  relevance_score : Rat
  quality_score : Rat
  total_sections : Nat
  processing_timestamp : List Char

/-- Generic Python-`dict` insertion (first occurrence fixes the
position, the new value wins). -/
def assocInsert {β : Type} :
    List (List Char × β) → List Char → β → List (List Char × β)
  | [], k, v => [(k, v)]
  | (k', v') :: t, k, v =>
    if k' = k then (k', v) :: t else (k', v') :: assocInsert t k v

/-- The `section_summaries_dict` comprehension of
`_synthesize_final_analysis` (lines 703–706):
`{s.section_title: s.detailed_summary for s in section_summaries}`. -/
def sectionSummariesDict (section_summaries : List SectionSummary) :
    List (List Char × List Char) :=
  section_summaries.foldl
    (fun acc s => assocInsert acc s.section_title s.detailed_summary) []

/-- The (truncated) template variables fed to the final-synthesis LLM
call on a given attempt (lines 735–751). -/
structure SynthInput where
  first_page : List Char
  level3 : List Char
  level2 : List Char
  level1 : List Char
  contributions : List Char
  methodologies : List Char
  results : List Char
  citations : List Char
deriving DecidableEq, Repr

def defaultLevel : HierarchicalLevel := { level := 0, summary := [], key_contributions := [], scope := none }

def aggContributions (section_summaries : List SectionSummary) : List (List Char) :=
  section_summaries.foldl (fun a s => a ++ s.key_points) []

def aggMethodologies (section_summaries : List SectionSummary) : List (List Char) :=
  section_summaries.foldl (fun a s => a ++ s.methodological_details) []

def aggResults (section_summaries : List SectionSummary) : List (List Char) :=
  section_summaries.foldl (fun a s => a ++ s.empirical_findings) []

def aggCitations (section_summaries : List SectionSummary) : List (List Char) :=
  section_summaries.foldl (fun a s => a ++ s.citations_mentioned) []

/-- Per-attempt progressive-degradation budgets and prompt assembly of
the final synthesis (lines 732–751). -/
def mkSynthInput (paper_content : List Char) (section_summaries : List SectionSummary)
    (hierarchy : List HierarchicalLevel) (attempt : Nat) : SynthInput :=
  let first_page := paper_content.take 2000
  { first_page := first_page.take (10000 - attempt * 2000),
    level3 := (hierarchy.getD 2 defaultLevel).summary.take 10000,
    level2 := (hierarchy.getD 1 defaultLevel).summary.take 15000,
    level1 := (hierarchy.getD 0 defaultLevel).summary.take (20000 - attempt * 4000),
    contributions :=
      pyReprStrList ((aggContributions section_summaries).take (50 - attempt * 10)),
    methodologies :=
      pyReprStrList ((aggMethodologies section_summaries).take (30 - attempt * 5)),
    results := pyReprStrList ((aggResults section_summaries).take (30 - attempt * 5)),
    citations := pyReprStrList ((aggCitations section_summaries).take (50 - attempt * 10)) }

/-- The error classifier of the retry loops (lines 764–766 and
302–306): `'tool_use_failed' in str(e).lower() or
'failed to call a function' in str(e).lower() or '400' in str(e)`. -/
def isToolUseError (e : List Char) : Bool :=
  hasSub (pyLower e) (("tool_use_failed").toList) ||
    hasSub (pyLower e) (("failed to call a function").toList) ||
    hasSub e (("400").toList)

/-- The no-LLM fallback analysis built when every retry fails
(lines 774–807).  `now` models `datetime.now().isoformat()` filled in
by the Pydantic `default_factory`. -/
def fallback_analysis (paper_content : List Char) (sections : List Section)
    (section_summaries : List SectionSummary) (hierarchy : List HierarchicalLevel)
    (now : List Char) : ComprehensivePaperAnalysis :=
  let first_page := paper_content.take 2000
  let title_lines := (pySplit ['\n'] first_page).take 5
  let paper_title :=
    match title_lines with
    | t :: _ => t
    | [] => ("Unknown Paper").toList
  let all_contributions := aggContributions section_summaries
  let all_methodologies := aggMethodologies section_summaries
  let all_results := aggResults section_summaries
  let all_citations := aggCitations section_summaries
  { paper_title := paper_title,
    authors := [],
    publication_info := [],
    hierarchical_summaries := hierarchy,
    section_summaries := sectionSummariesDict section_summaries,
    abstract_summary :=
      if hierarchy.length > 2 then (hierarchy.getD 2 defaultLevel).summary
      else ("Analysis completed with partial data.").toList,
    contributions := all_contributions.take 20,
    methodology :=
      if all_methodologies ≠ [] then
        Json.obj [(("approach").toList,
          Json.str (pyJoin ((", ").toList) (all_methodologies.take 10)))]
      else Json.obj [],
    datasets := [],
    experiments := [],
    results :=
      if all_results ≠ [] then
        Json.obj [(("findings").toList,
          Json.str (pyJoin ((", ").toList) (all_results.take 10)))]
      else Json.obj [],
    limitations := [],
    future_work := [],
    technical_depth := ("Moderate (fallback analysis)").toList,
    novelty := ("See hierarchical summaries for details").toList,
    domain_tags := [("Research Paper").toList],
    code_resources := Json.obj [],
    related_papers := [],
    citations := all_citations.take 20,
    relevance_score := (0.7 : Rat),
    quality_score := (0.7 : Rat),
    total_sections := sections.length,
    processing_timestamp := now }

/-- The retry loop of `_synthesize_final_analysis` (lines 730–807).
`behavior` is the structured LLM oracle: per attempt index and prompt
input it yields either a `ComprehensivePaperAnalysis` or a raised error
message.  `hierarchy[2]` is accessed inside the prompt construction, so
a short hierarchy raises `IndexError` (not classified, re-raised). -/
def synthesizeAux (behavior : Nat → SynthInput → Except (List Char) ComprehensivePaperAnalysis)
    (paper_content : List Char) (sections : List Section)
    (section_summaries : List SectionSummary) (hierarchy : List HierarchicalLevel)
    (now : List Char) : Nat → Nat → Except (List Char) ComprehensivePaperAnalysis
  | 0, _ =>
    .ok (fallback_analysis paper_content sections section_summaries hierarchy now)
  | remaining + 1, attempt =>
    if hierarchy.length < 3 then .error (("list index out of range").toList)
    else
      match behavior attempt (mkSynthInput paper_content section_summaries hierarchy attempt) with
      | .ok final0 =>
        .ok { final0 with
          hierarchical_summaries := hierarchy,
          section_summaries := sectionSummariesDict section_summaries,
          total_sections := sections.length }
      | .error e =>
        if isToolUseError e then
          synthesizeAux behavior paper_content sections section_summaries hierarchy now
            remaining (attempt + 1)
        else .error e

/-- Embedding of `SASHASProcessor._synthesize_final_analysis` (lines 671–807),
`max_retries = 3`. -/
def synthesize_final_analysis
    (behavior : Nat → SynthInput → Except (List Char) ComprehensivePaperAnalysis)
    (paper_content : List Char) (sections : List Section)
    (section_summaries : List SectionSummary) (hierarchy : List HierarchicalLevel)
    (now : List Char) : Except (List Char) ComprehensivePaperAnalysis :=
  synthesizeAux behavior paper_content sections section_summaries hierarchy now 3 0

/-- Definition following the spec's words for C8 ("title derived from
the first non-empty line of the document head"), used only to compare
against the source behaviour. -/
def specFirstNonEmptyLine (documentHead : List Char) : Option (List Char) :=
  (pySplit ['\n'] documentHead).find? (fun l => l ≠ [])

/-! ## Comparative-analysis synthesis stage
(`comparative_analysis.py` 208–294) -/

/-- Embedding of `ComparativeAnalysisSchema` (`agents/agentSchema.py` 58–66); the
`List[Dict[str, Any]]` results field is modelled as JSON values. -/
structure ComparativeAnalysisSchema where
  comparative_analysis_results : List Json
  comparative_analysis_summary : List Char
  comparative_analysis_recommendation : List Char
  comparative_analysis_status : List Char
  comparative_analysis_date : List Char
  comparative_analysis_author : List Char
  comparative_analysis_title : List Char
  comparative_analysis_publication : List Char

/-- Embedding of `create_empty_schema_instance(ComparativeAnalysisSchema)`
(`safe_structured_output.py` 238–273).  Every field of
`ComparativeAnalysisSchema` is required (`Field(...)`), so under
Pydantic v2 (the code uses `model_fields` / `model_validate` /
`model_dump` throughout) each `field_info.default` is the
`PydanticUndefined` sentinel, which `is not None`; the helper therefore
copies the sentinel into `field_values` for every field and the final
`schema.model_validate(field_values)` raises a `ValidationError`
(whether the sentinel is treated as an invalid value for a `str` /
`List[...]` field or as a missing required field).  The call raises
instead of producing an "empty-but-valid" instance, modelled as an
`Except.error`. -/
def create_empty_schema_instance_comparative :
    Except (List Char) ComparativeAnalysisSchema :=
  .error (("ValidationError").toList)

/-- The dict returned by either branch of the comparative-analysis
synthesis stage: the eight schema fields plus the appended
`react_steps` trace and `sources_used` count. -/
structure ComparativeAnalysisOutput where
  fields : ComparativeAnalysisSchema
  react_steps : List ReActStep
  sources_used : Nat

/-- How a `comparative_analysis_node` run ended: the insufficient-data
placeholder return (lines 218–232, no LLM call), the grounded-synthesis
return (lines 262–294), or an exception that escapes to the node's
outer `except Exception` (lines 296–302), which appends to the error
log and returns an errors record instead of a `comparative_analysis`
field. -/
inductive CompAnalysisOutcome where
  | insufficientData (output : ComparativeAnalysisOutput)
  | synthesized (output : ComparativeAnalysisOutput)
  | nodeError (err : List Char)

/-- The placeholder analysis of lines 220–231; `now` models
`datetime.now().strftime(...)`. -/
def comparative_placeholder (comparisonResults : List SearchResult)
    (reactSteps : List ReActStep) (paperTitle now : List Char) :
    ComparativeAnalysisOutput :=
  { fields :=
      { comparative_analysis_results := [],
        comparative_analysis_summary :=
          ("Insufficient comparison data available. Only ").toList ++
            natChars comparisonResults.length ++ (" source(s) found.").toList,
        comparative_analysis_recommendation :=
          ("More research needed to establish meaningful comparisons.").toList,
        comparative_analysis_status := ("Incomplete - insufficient data").toList,
        comparative_analysis_date := now,
        comparative_analysis_author := ("ResearchCopilot").toList,
        comparative_analysis_title := ("Comparative Analysis - ").toList ++ paperTitle,
        comparative_analysis_publication := ("N/A").toList },
    react_steps := reactSteps,
    sources_used := comparisonResults.length }

/-- The synthesis stage of `comparative_analysis_node` after the ReAct
loop (lines 208–302): below 2 sources the placeholder is returned
before any LLM or fallback construction runs.  Otherwise the call
`safe_structured_invoke(..., fallback_value=create_empty_schema_instance(ComparativeAnalysisSchema))`
(line 271–278) first evaluates its fallback argument eagerly
(line 277), and that construction raises (see
`create_empty_schema_instance_comparative`), so the exception escapes
to the node's outer `except` and the synthesized return at line 294 is
dead code on this branch; the arm below the raise mirrors lines
280–294 (date post-fill, `model_dump` plus `react_steps` and
`sources_used`) but is unreachable. -/
def comparative_finalize
    (aggAttempts : Nat → Except (List Char) ComparativeAnalysisSchema)
    (compValidate : Json → Option ComparativeAnalysisSchema)
    (comparisonResults : List SearchResult) (reactSteps : List ReActStep)
    (paperTitle now : List Char) : CompAnalysisOutcome :=
  if comparisonResults.length < 2 then
    .insufficientData (comparative_placeholder comparisonResults reactSteps paperTitle now)
  else
    match create_empty_schema_instance_comparative with
    | .error e => .nodeError e
    | .ok fallbackValue =>
      let analysis :=
        match safe_structured_invoke aggAttempts compValidate 2 (some fallbackValue) with
        | .ok a => a
        | .error _ => fallbackValue
      let analysis' :=
        if analysis.comparative_analysis_date = [] then
          { analysis with comparative_analysis_date := now }
        else analysis
      .synthesized
        { fields := analysis', react_steps := reactSteps,
          sources_used := comparisonResults.length }

/-- The comparative-analysis node core: the seeded ReAct loop followed
by the synthesis stage (the `< 2` check runs on the loop's final
`comparison_results`, which started from the web-research stage's
`retrieval_results`). -/
def comparative_analysis_core (llm : Nat → List Char)
    (tavily : List Char → Nat → List SearchResult)
    (paperTitle : List Char) (citations : List (List Char))
    (existingResults : List SearchResult)
    (aggAttempts : Nat → Except (List Char) ComparativeAnalysisSchema)
    (compValidate : Json → Option ComparativeAnalysisSchema)
    (now : List Char) : CompAnalysisOutcome :=
  let loopOut := comparativeLoop llm tavily paperTitle citations existingResults
  comparative_finalize aggAttempts compValidate loopOut.results loopOut.steps
    paperTitle now

/-! ## Web-research aggregation stage (`web_research.py` 198–226)

Unlike the comparative node, `web_research_agent` has no
insufficient-data guard: the structured-output chain is invoked on
`all_search_results[:10]` unconditionally. -/

/-- Embedding of `WebResearchSchema` (`agents/agentSchema.py` 26–36). -/
structure WebResearchSchema where
  topic_interpretation : List Char
  related_terms : List (List Char)
  query_intent : List Char
  retrieval_results : List Json
  aggregated_sources : List (List Char × List (List Char))
  snippet_highlights : List (List Char)
  credibility_scores : List (List Char × Rat)
  trend_signals : List (List Char × Json)
  key_players : List (List Char)
  candidate_papers : List (List Char)

/-- Serialize one Tavily result dict for `json.dumps`. -/
def searchResultToJson (r : SearchResult) : Json :=
  Json.obj [(("title").toList, Json.str r.title),
            (("url").toList, Json.str r.url),
            (("content").toList, Json.str r.content)]

/-- The payload of the structured aggregation call of
`web_research_agent` (lines 216–222). -/
structure WebAggInput where
  context : List Char
  results_json : List Char

/-- The aggregation stage of `web_research_agent` (lines 200–222): the
structured chain is applied to the truncated context and the first ten
results, with no check on the collected-result count. -/
def web_research_aggregate (aggregate : WebAggInput → WebResearchSchema)
    (context : List Char) (allSearchResults : List SearchResult) : WebResearchSchema :=
  aggregate
    { context := context.take 2000,
      results_json :=
        jsonDumps (Json.arr ((allSearchResults.take 10).map searchResultToJson)) }

/-! # Theorems -/

/-! ## Shared helper lemmas -/

theorem map_eq_self_of_pointwise {α : Type} (f : α → α) :
    ∀ s : List α, (∀ c ∈ s, f c = c) → s.map f = s
  | [], _ => rfl
  | c :: t, h => by
    simp only [List.map_cons, List.cons.injEq]
    exact ⟨h c (List.mem_cons_self c t),
      map_eq_self_of_pointwise f t (fun x hx => h x (List.mem_cons_of_mem c hx))⟩

theorem dedupeBatchAux_keys (rs : List SearchResult) : ∀ seen,
    (∀ k ∈ (dedupeBatchAux seen rs).map resultKey, k ∉ seen ∧ k ≠ []) ∧
      ((dedupeBatchAux seen rs).map resultKey).Nodup := by
  induction rs with
  | nil => intro seen; simp [dedupeBatchAux]
  | cons r rs ih =>
    intro seen
    by_cases hk : resultKey r = [] ∨ resultKey r ∈ seen
    · simpa [dedupeBatchAux, hk] using ih seen
    · have heq : dedupeBatchAux seen (r :: rs) =
          r :: dedupeBatchAux (resultKey r :: seen) rs := by
        simp [dedupeBatchAux, hk]
      rw [heq]
      push_neg at hk
      obtain ⟨h1A, h2A⟩ := ih (resultKey r :: seen)
      constructor
      · intro k hkmem
        rw [List.map_cons] at hkmem
        rcases (List.mem_cons).1 hkmem with hkhead | hktail
        · exact hkhead ▸ ⟨hk.2, hk.1⟩
        · have h3 := h1A k hktail
          exact ⟨fun hs => h3.1 (List.mem_cons_of_mem _ hs), h3.2⟩
      · rw [List.map_cons, List.nodup_cons]
        exact ⟨fun hmem => (h1A _ hmem).1 (List.mem_cons_self _ _), h2A⟩

theorem dedupeBatch_keys_nodup (rs : List SearchResult) :
    ((dedupeBatch rs).map resultKey).Nodup :=
  (dedupeBatchAux_keys rs []).2

theorem dedupeBatch_keys_ne_nil (rs : List SearchResult) :
    ∀ r ∈ dedupeBatch rs, resultKey r ≠ [] := by
  intro r hr
  have := (dedupeBatchAux_keys rs []).1 (resultKey r) (List.mem_map_of_mem resultKey hr)
  exact this.2

/-- Claim C4. The claim asserts that each ReAct iteration deduplicates
incoming results against *all previously collected* results, so that the
collected keys stay pairwise distinct.  In the code
(`web_research.py` 159–168, `comparative_analysis.py` 172–179) the
`seen` set is re-created inside each iteration and only the incoming
Tavily batch is filtered, so a result whose key already occurs among
earlier-collected results is appended again.  Counterexample: an LLM
that searches on two iterations with a collaborator returning the same
single result each time; the comparative loop collects the same key
five times. -/
theorem comparativeLoop_duplicate_keys_counterexample :
    ¬ (((comparativeLoop
          (fun _ => ("THOUGHT: t\nACTION: web_search\nACTION_INPUT: q").toList)
          (fun _ _ => [⟨("T").toList, ("http://x").toList, ("c").toList⟩])
          (("P").toList) [] []).results.map resultKey).Nodup) := by
  decide

/-- Claim C4 (amended). What the dedup step actually guarantees: within a
single incoming batch, results with empty keys are dropped and at most
one result per normalized key is retained, so the keys of each
deduplicated batch are pairwise distinct (and feeding a duplicate into
the same batch adds no second entry).  Batches are not checked against
previously collected results. -/
theorem dedupeBatch_within_batch_distinct (rs : List SearchResult) :
    ((dedupeBatch rs).map resultKey).Nodup ∧
      ∀ r ∈ dedupeBatch rs, resultKey r ≠ [] :=
  ⟨dedupeBatch_keys_nodup rs, dedupeBatch_keys_ne_nil rs⟩

/-- Witness for C4 (amended): one batch containing the same result
twice retains a single entry with pairwise-distinct keys. -/
theorem dedupeBatch_within_batch_distinct_witness :
    ((dedupeBatch [⟨("T").toList, ("http://x").toList, []⟩,
        ⟨("T").toList, ("http://x").toList, []⟩]).map resultKey).Nodup :=
  (dedupeBatch_within_batch_distinct
    [⟨("T").toList, ("http://x").toList, []⟩,
      ⟨("T").toList, ("http://x").toList, []⟩]).1

/-! ## C9: `create_hierarchy` shape and cap schedule -/

/-- Claim C9. For every list of section summaries (and any LLM
behaviour), `create_hierarchy` returns exactly three levels with
`level` fields 1, 2, 3; level 1's `key_contributions` is the aggregated
key points capped at 50, level 2's is level 1's capped at 20, level 3's
is level 2's capped at 10; hence the lengths are monotonically
non-increasing. -/
theorem create_hierarchy_three_capped_levels (llm : HasLLM)
    (ss : List SectionSummary) :
    ∃ l1 l2 l3, create_hierarchy llm ss = [l1, l2, l3] ∧
      l1.level = 1 ∧ l2.level = 2 ∧ l3.level = 3 ∧
      l1.key_contributions = (allKeyPoints ss).take 50 ∧
      l2.key_contributions = l1.key_contributions.take 20 ∧
      l3.key_contributions = l2.key_contributions.take 10 ∧
      l3.key_contributions.length ≤ l2.key_contributions.length ∧
      l2.key_contributions.length ≤ l1.key_contributions.length := by
  refine ⟨_, _, _, rfl, rfl, rfl, rfl, rfl, ?_, ?_, ?_, ?_⟩
  · simp [create_hierarchy, create_level2_summary, create_level1_summary]
  · simp [create_hierarchy, create_level3_summary, create_level2_summary]
  · simp [create_hierarchy, create_level3_summary, create_level2_summary,
      create_level1_summary]
  · simp [create_hierarchy, create_level2_summary, create_level1_summary]

/-! ## C7: insufficient-data handling of the synthesis stages -/

/-- Claim C7. The claim asserts that *every* search-grounded call site
skips the structured-synthesis LLM call when fewer than 2 results were
collected.  `web_research_agent` (lines 198–226) has no such guard: the
aggregation chain is invoked even on an empty result list, so the
stage's output still depends on the LLM.  Counterexample: with zero
collected results, two different aggregation behaviours give two
different outputs — the call was not skipped and no placeholder is
returned. -/
theorem web_research_no_insufficient_guard_counterexample :
    web_research_aggregate
        (fun _ => ⟨("A").toList, [], [], [], [], [], [], [], [], []⟩) [] [] ≠
      web_research_aggregate
        (fun _ => ⟨("B").toList, [], [], [], [], [], [], [], [], []⟩) [] [] := by
  intro h
  have h2 := congrArg WebResearchSchema.topic_interpretation h
  simp [web_research_aggregate] at h2

/-- Claim C7 (amended). Only the comparative-analysis call site skips
synthesis: when fewer than 2 comparison sources were collected, the LLM
is not consulted (the outcome is a fixed record independent of the
aggregation oracles) and the placeholder carries
`comparative_analysis_status = "Incomplete - insufficient data"`; in
particular a comparative run with every search empty and no seeded
results ends in this placeholder.  The web-research call site invokes
its synthesis LLM unconditionally. -/
theorem comparative_finalize_insufficient_placeholder
    (aggAttempts : Nat → Except (List Char) ComparativeAnalysisSchema)
    (compValidate : Json → Option ComparativeAnalysisSchema)
    (comparisonResults : List SearchResult) (reactSteps : List ReActStep)
    (paperTitle now : List Char)
    (h : comparisonResults.length < 2) :
    comparative_finalize aggAttempts compValidate comparisonResults reactSteps
        paperTitle now =
      .insufficientData
        (comparative_placeholder comparisonResults reactSteps paperTitle now) ∧
      (comparative_placeholder comparisonResults reactSteps paperTitle
          now).fields.comparative_analysis_status =
        ("Incomplete - insufficient data").toList := by
  refine ⟨?_, rfl⟩
  simp [comparative_finalize, h]

/-- Witness for C7 (amended), instantiating the spec scenario: the
ReAct loop runs with a search collaborator that returns `[]` for every
query and no seeded results, collects nothing, and the synthesis stage
returns the insufficient-data placeholder. -/
theorem comparative_finalize_insufficient_placeholder_witness :
    comparative_finalize (fun _ => Except.error []) (fun _ => none)
        (comparativeLoop (fun _ => ("ACTION: FINISH").toList) (fun _ _ => [])
          (("P").toList) [] []).results [] (("P").toList) [] =
      .insufficientData
        (comparative_placeholder
          (comparativeLoop (fun _ => ("ACTION: FINISH").toList) (fun _ _ => [])
            (("P").toList) [] []).results [] (("P").toList) []) ∧
      (comparative_placeholder
          (comparativeLoop (fun _ => ("ACTION: FINISH").toList) (fun _ _ => [])
            (("P").toList) [] []).results [] (("P").toList)
          []).fields.comparative_analysis_status =
        ("Incomplete - insufficient data").toList :=
  comparative_finalize_insufficient_placeholder _ _ _ _ _ _ (by decide)

/-! ## Loop lemmas: iteration bound, forced-continuation floor, cap -/

theorem webFallbackQuery_ne_nil (pt : List Char) (dt : List (List Char)) :
    webFallbackQuery pt dt ≠ [] := by
  unfold webFallbackQuery
  split <;> simp

theorem compFallbackQuery_ne_nil (pt : List Char) (cits : List (List Char)) :
    compFallbackQuery pt cits ≠ [] := by
  cases cits <;> simp [compFallbackQuery]

/-- If a web-research iteration exits through the FINISH break, the
forced-continuation rule must not have fired, so at least
`min_results = 15` results were already collected. -/
theorem webStep_finish_floor (llm : Nat → List Char)
    (tavily : List Char → Nat → List SearchResult) (pt : List Char)
    (dt : List (List Char)) (iter : Nat) (results : List SearchResult)
    (step : ReActStep)
    (h : webStep llm tavily pt dt iter results = .finish step) :
    15 ≤ results.length := by
  unfold webStep at h
  by_cases hF : hasSub (pyUpper (parseReact (llm iter)).2.1) (("FINISH").toList) = true
  case neg =>
    have hFf : hasSub (pyUpper (parseReact (llm iter)).2.1) (("FINISH").toList) = false := by
      simpa using hF
    simp [hFf] at h
    split at h <;> try simp_all
    all_goals (split at h <;> simp_all)
  case pos =>
    by_cases hB : results.length < 15
    case neg => exact Nat.le_of_not_lt hB
    case pos =>
      exfalso
      have hff : (hasSub (pyUpper (parseReact (llm iter)).2.1) (("FINISH").toList) &&
          decide (results.length < 15)) = true := by
        rw [hF]; simpa using hB
      simp [hff] at h
      split at h <;> try simp_all +decide [webFallbackQuery_ne_nil pt dt]
      all_goals (split at h <;> simp_all +decide [webFallbackQuery_ne_nil pt dt])

/-- FINISH-break floor for the comparative loop
(`min_comparison_papers = 5`). -/
theorem compStep_finish_floor (llm : Nat → List Char)
    (tavily : List Char → Nat → List SearchResult) (pt : List Char)
    (cits : List (List Char)) (iter : Nat) (results : List SearchResult)
    (step : ReActStep)
    (h : compStep llm tavily pt cits iter results = .finish step) :
    5 ≤ results.length := by
  unfold compStep at h
  by_cases hF : hasSub (pyUpper (parseReact (llm iter)).2.1) (("FINISH").toList) = true
  case neg =>
    have hFf : hasSub (pyUpper (parseReact (llm iter)).2.1) (("FINISH").toList) = false := by
      simpa using hF
    simp [hFf] at h
    split at h <;> try simp_all
    all_goals (split at h <;> simp_all)
  case pos =>
    by_cases hB : results.length < 5
    case neg => exact Nat.le_of_not_lt hB
    case pos =>
      exfalso
      have hff : (hasSub (pyUpper (parseReact (llm iter)).2.1) (("FINISH").toList) &&
          decide (results.length < 5)) = true := by
        rw [hF]; simpa using hB
      simp [hff] at h
      split at h <;> try simp_all +decide [compFallbackQuery_ne_nil pt cits]
      all_goals (split at h <;> simp_all +decide [compFallbackQuery_ne_nil pt cits])

/-- Invariant of the web-research loop recursion: at most one trace
step per remaining iteration; a FINISH exit implies the 15-result
floor; a cap exit implies at least 30 results; the collected list only
grows. -/
theorem webLoopAux_spec (llm : Nat → List Char)
    (tavily : List Char → Nat → List SearchResult) (pt : List Char)
    (dt : List (List Char)) :
    ∀ rem iter steps results,
      (webLoopAux llm tavily pt dt rem iter steps results).steps.length ≤
          steps.length + rem ∧
        ((webLoopAux llm tavily pt dt rem iter steps results).reason = .finish →
          15 ≤ (webLoopAux llm tavily pt dt rem iter steps results).results.length) ∧
        ((webLoopAux llm tavily pt dt rem iter steps results).reason = .cap →
          30 ≤ (webLoopAux llm tavily pt dt rem iter steps results).results.length) ∧
        results.length ≤
          (webLoopAux llm tavily pt dt rem iter steps results).results.length := by
  intro rem
  induction rem with
  | zero => intro iter steps results; simp [webLoopAux]
  | succ n ih =>
    intro iter steps results
    cases hstep : webStep llm tavily pt dt iter results with
    | search step newResults =>
      simp only [webLoopAux, hstep]
      split
      case isTrue hcap =>
        refine ⟨?_, ?_, ?_, ?_⟩
        · simp only [List.length_reverse, List.length_cons]; omega
        · simp
        · intro _; exact hcap
        · simp
      case isFalse hcap =>
        have ihx := ih (iter + 1) (step :: steps) (results ++ newResults)
        refine ⟨?_, ihx.2.1, ihx.2.2.1, ?_⟩
        · refine Nat.le_trans ihx.1 ?_
          simp only [List.length_cons]; omega
        · exact Nat.le_trans (by simp) ihx.2.2.2
    | finish step =>
      refine ⟨?_, ?_, ?_, ?_⟩ <;> simp only [webLoopAux, hstep]
      · simp only [List.length_reverse, List.length_cons]; omega
      · intro _; exact webStep_finish_floor llm tavily pt dt iter results step hstep
      · intro hc; exact absurd hc (by simp)
      · exact Nat.le_refl _
    | noop step =>
      simp only [webLoopAux, hstep]
      split
      case isTrue hcap =>
        refine ⟨?_, ?_, ?_, ?_⟩
        · simp only [List.length_reverse, List.length_cons]; omega
        · simp
        · intro _; exact hcap
        · exact Nat.le_refl _
      case isFalse hcap =>
        have ihx := ih (iter + 1) (step :: steps) results
        refine ⟨?_, ihx.2.1, ihx.2.2.1, ihx.2.2.2⟩
        refine Nat.le_trans ihx.1 ?_
        simp only [List.length_cons]; omega

/-- Invariant of the comparative loop recursion (floor 5, cap 15),
analogous to `webLoopAux_spec`. -/
theorem compLoopAux_spec (llm : Nat → List Char)
    (tavily : List Char → Nat → List SearchResult) (pt : List Char)
    (cits : List (List Char)) :
    ∀ rem iter steps results,
      (compLoopAux llm tavily pt cits rem iter steps results).steps.length ≤
          steps.length + rem ∧
        ((compLoopAux llm tavily pt cits rem iter steps results).reason = .finish →
          5 ≤ (compLoopAux llm tavily pt cits rem iter steps results).results.length) ∧
        ((compLoopAux llm tavily pt cits rem iter steps results).reason = .cap →
          15 ≤ (compLoopAux llm tavily pt cits rem iter steps results).results.length) ∧
        results.length ≤
          (compLoopAux llm tavily pt cits rem iter steps results).results.length := by
  intro rem
  induction rem with
  | zero => intro iter steps results; simp [compLoopAux]
  | succ n ih =>
    intro iter steps results
    cases hstep : compStep llm tavily pt cits iter results with
    | search step newResults =>
      simp only [compLoopAux, hstep]
      split
      case isTrue hcap =>
        refine ⟨?_, ?_, ?_, ?_⟩
        · simp only [List.length_reverse, List.length_cons]; omega
        · simp
        · intro _; exact hcap
        · simp
      case isFalse hcap =>
        have ihx := ih (iter + 1) (step :: steps) (results ++ newResults)
        refine ⟨?_, ihx.2.1, ihx.2.2.1, ?_⟩
        · refine Nat.le_trans ihx.1 ?_
          simp only [List.length_cons]; omega
        · exact Nat.le_trans (by simp) ihx.2.2.2
    | finish step =>
      refine ⟨?_, ?_, ?_, ?_⟩ <;> simp only [compLoopAux, hstep]
      · simp only [List.length_reverse, List.length_cons]; omega
      · intro _; exact compStep_finish_floor llm tavily pt cits iter results step hstep
      · intro hc; exact absurd hc (by simp)
      · exact Nat.le_refl _
    | noop step =>
      simp only [compLoopAux, hstep]
      split
      case isTrue hcap =>
        refine ⟨?_, ?_, ?_, ?_⟩
        · simp only [List.length_reverse, List.length_cons]; omega
        · simp
        · intro _; exact hcap
        · exact Nat.le_refl _
      case isFalse hcap =>
        have ihx := ih (iter + 1) (step :: steps) results
        refine ⟨?_, ihx.2.1, ihx.2.2.1, ihx.2.2.2⟩
        refine Nat.le_trans ihx.1 ?_
        simp only [List.length_cons]; omega

/-- Claim C1. For every LLM behaviour and every search collaborator
(including an LLM that always answers FINISH with empty output and a
search that always returns `[]`), each ReAct loop runs at most its
`max_iterations` iterations (8 for web research, 5 for comparative
analysis — one trace step per executed iteration), a cap exit implies
the call-site result cap was reached (30 resp. 15), and the loop cannot
exit through the FINISH branch with fewer collected results than the
call-site minimum (`min_results = 15` resp.
`min_comparison_papers = 5`), because a FINISH action below the floor
is overridden to a `web_search`. -/
theorem react_loops_terminate_with_floor
    (llmW : Nat → List Char) (tavW : List Char → Nat → List SearchResult)
    (pt : List Char) (dt : List (List Char)) (initW : List SearchResult)
    (llmC : Nat → List Char) (tavC : List Char → Nat → List SearchResult)
    (ptC : List Char) (cits : List (List Char)) (initC : List SearchResult) :
    ((webResearchLoop llmW tavW pt dt initW).steps.length ≤ 8 ∧
      ((webResearchLoop llmW tavW pt dt initW).reason = .finish →
        15 ≤ (webResearchLoop llmW tavW pt dt initW).results.length) ∧
      ((webResearchLoop llmW tavW pt dt initW).reason = .cap →
        30 ≤ (webResearchLoop llmW tavW pt dt initW).results.length)) ∧
    ((comparativeLoop llmC tavC ptC cits initC).steps.length ≤ 5 ∧
      ((comparativeLoop llmC tavC ptC cits initC).reason = .finish →
        5 ≤ (comparativeLoop llmC tavC ptC cits initC).results.length) ∧
      ((comparativeLoop llmC tavC ptC cits initC).reason = .cap →
        15 ≤ (comparativeLoop llmC tavC ptC cits initC).results.length)) := by
  have hw := webLoopAux_spec llmW tavW pt dt 8 0 [] initW
  have hc := compLoopAux_spec llmC tavC ptC cits 5 0 [] initC
  exact ⟨⟨by simpa using hw.1, hw.2.1, hw.2.2.1⟩,
    ⟨by simpa using hc.1, hc.2.1, hc.2.2.1⟩⟩

/-- Witness for C1: a concrete always-FINISH LLM with an
empty-returning search.  The web loop starts above its floor (20 seeded
results) and exits through FINISH with the floor satisfied; the
comparative loop runs its at-most-5 iterations. -/
theorem react_loops_terminate_with_floor_witness :
    15 ≤ (webResearchLoop (fun _ => ("ACTION: FINISH").toList) (fun _ _ => [])
        (("P").toList) []
        (List.replicate 20 ⟨("T").toList, ("u").toList, []⟩)).results.length ∧
      (comparativeLoop (fun _ => ("ACTION: FINISH").toList) (fun _ _ => [])
        (("P").toList) [] []).steps.length ≤ 5 :=
  ⟨(react_loops_terminate_with_floor (fun _ => ("ACTION: FINISH").toList)
      (fun _ _ => []) (("P").toList) []
      (List.replicate 20 ⟨("T").toList, ("u").toList, []⟩)
      (fun _ => ("ACTION: FINISH").toList) (fun _ _ => []) (("P").toList) []
      []).1.2.1 (by decide),
    (react_loops_terminate_with_floor (fun _ => ("ACTION: FINISH").toList)
      (fun _ _ => []) (("P").toList) []
      (List.replicate 20 ⟨("T").toList, ("u").toList, []⟩)
      (fun _ => ("ACTION: FINISH").toList) (fun _ _ => []) (("P").toList) []
      []).2.1⟩

/-! ## C10: the comparative loop is seeded with web-research results -/

/-- Claim C10. `comparison_results` is initialized with the web-research
stage's `retrieval_results` (`comparison_results = list(existing_results)`),
and the loop only appends; the `< 2` insufficient-data check runs on
this seeded list, so whenever web research supplied at least 2
retrieval results, the placeholder branch is unreachable regardless of
the searches performed during the comparative run.  On that branch the
run does not reach the synthesized return either: the eager
construction of the never-raise fallback
(`create_empty_schema_instance(ComparativeAnalysisSchema)`, line 277)
raises for this all-required schema, so the node ends in its outer
exception handler, not in the placeholder. -/
theorem comparative_core_seeded_skips_placeholder (llm : Nat → List Char)
    (tavily : List Char → Nat → List SearchResult) (pt : List Char)
    (cits : List (List Char)) (existing : List SearchResult)
    (aggAttempts : Nat → Except (List Char) ComparativeAnalysisSchema)
    (compValidate : Json → Option ComparativeAnalysisSchema) (now : List Char)
    (h : 2 ≤ existing.length) :
    (∀ out, comparative_analysis_core llm tavily pt cits existing aggAttempts
        compValidate now ≠ .insufficientData out) ∧
      ∃ e, comparative_analysis_core llm tavily pt cits existing aggAttempts
        compValidate now = .nodeError e := by
  have hmono := (compLoopAux_spec llm tavily pt cits 5 0 [] existing).2.2.2
  have h2 : ¬((comparativeLoop llm tavily pt cits existing).results.length < 2) := by
    have : 2 ≤ (comparativeLoop llm tavily pt cits existing).results.length :=
      Nat.le_trans h hmono
    omega
  have hcore : comparative_analysis_core llm tavily pt cits existing aggAttempts
      compValidate now = .nodeError (("ValidationError").toList) := by
    unfold comparative_analysis_core comparative_finalize
    simp only [h2, if_false, if_neg h2]
    rfl
  refine ⟨fun out hcon => ?_, ⟨_, hcore⟩⟩
  rw [hcore] at hcon
  exact CompAnalysisOutcome.noConfusion hcon

/-- Witness for C10: two seeded results, an always-FINISH LLM and empty
searches — the run never produces the insufficient-data placeholder
(it ends in the node-level error from the raising fallback
construction). -/
theorem comparative_core_seeded_skips_placeholder_witness :
    (∀ out, comparative_analysis_core (fun _ => ("ACTION: FINISH").toList)
        (fun _ _ => []) (("P").toList) []
        [⟨("A").toList, ("u1").toList, []⟩, ⟨("B").toList, ("u2").toList, []⟩]
        (fun _ => Except.error []) (fun _ => none) [] ≠
        CompAnalysisOutcome.insufficientData out) ∧
      ∃ e, comparative_analysis_core (fun _ => ("ACTION: FINISH").toList)
        (fun _ _ => []) (("P").toList) []
        [⟨("A").toList, ("u1").toList, []⟩, ⟨("B").toList, ("u2").toList, []⟩]
        (fun _ => Except.error []) (fun _ => none) [] =
        CompAnalysisOutcome.nodeError e :=
  comparative_core_seeded_skips_placeholder _ _ _ _ _ _ _ _ (by decide)

/-! ## C2 / C8: final-synthesis post-processing and fallback -/

/-- Any `ok` outcome of the final-synthesis retry loop carries the
phase-1/phase-2 values in the three force-overwritten fields. -/
theorem synthesizeAux_overwrites
    (behavior : Nat → SynthInput → Except (List Char) ComprehensivePaperAnalysis)
    (doc : List Char) (sections : List Section) (ss : List SectionSummary)
    (hierarchy : List HierarchicalLevel) (now : List Char) :
    ∀ rem attempt a,
      synthesizeAux behavior doc sections ss hierarchy now rem attempt = .ok a →
        a.hierarchical_summaries = hierarchy ∧
          a.section_summaries = sectionSummariesDict ss ∧
          a.total_sections = sections.length := by
  intro rem
  induction rem with
  | zero =>
    intro attempt a h
    simp only [synthesizeAux] at h
    injection h with h2
    subst h2
    exact ⟨rfl, rfl, rfl⟩
  | succ n ih =>
    intro attempt a h
    simp only [synthesizeAux] at h
    split at h
    · exact absurd h (by simp)
    · cases hb : behavior attempt (mkSynthInput doc ss hierarchy attempt) with
      | ok f =>
        rw [hb] at h
        dsimp only at h
        injection h with h2
        subst h2
        exact ⟨rfl, rfl, rfl⟩
      | error e =>
        rw [hb] at h
        dsimp only at h
        split at h
        · exact ih (attempt + 1) a h
        · exact absurd h (by simp)

/-- Claim C2. For every input and every LLM behaviour (success on any
attempt, or all retries failing), whenever the final synthesizer
returns a `ComprehensivePaperAnalysis`, its `hierarchical_summaries`
equal the phase-2 hierarchy, its `section_summaries` equal the phase-1
title→detailed-summary dict, and its `total_sections` equals the number
of sections detected in phase 1 — never values taken from the LLM's
structured output (both the success path, lines 753–757, and the
no-LLM fallback, lines 781–804, force these fields). -/
theorem final_synthesis_fields_overwritten
    (behavior : Nat → SynthInput → Except (List Char) ComprehensivePaperAnalysis)
    (doc : List Char) (sections : List Section) (ss : List SectionSummary)
    (hierarchy : List HierarchicalLevel) (now : List Char)
    (a : ComprehensivePaperAnalysis)
    (h : synthesize_final_analysis behavior doc sections ss hierarchy now = .ok a) :
    a.hierarchical_summaries = hierarchy ∧
      a.section_summaries = sectionSummariesDict ss ∧
      a.total_sections = sections.length :=
  synthesizeAux_overwrites behavior doc sections ss hierarchy now 3 0 a h

/-- Witness for C2: a synthesis run whose LLM fails all attempts with a
classified error returns the fallback analysis, and the theorem yields
its overwritten fields. -/
theorem final_synthesis_fields_overwritten_witness :
    (fallback_analysis [] [] [] [defaultLevel, defaultLevel, defaultLevel]
          []).hierarchical_summaries = [defaultLevel, defaultLevel, defaultLevel] ∧
      (fallback_analysis [] [] [] [defaultLevel, defaultLevel, defaultLevel]
          []).section_summaries = sectionSummariesDict [] ∧
      (fallback_analysis [] [] [] [defaultLevel, defaultLevel, defaultLevel]
          []).total_sections = List.length ([] : List Section) :=
  final_synthesis_fields_overwritten
    (fun _ _ => Except.error (("tool_use_failed").toList)) [] [] []
    [defaultLevel, defaultLevel, defaultLevel] [] _ rfl

/-- When every attempt raises a classified tool-use error, the retry
loop falls through to the deterministic no-LLM fallback. -/
theorem synthesizeAux_all_classified_fail
    (behavior : Nat → SynthInput → Except (List Char) ComprehensivePaperAnalysis)
    (doc : List Char) (sections : List Section) (ss : List SectionSummary)
    (hierarchy : List HierarchicalLevel) (now : List Char)
    (hfail : ∀ n inp, ∃ e, behavior n inp = Except.error e ∧ isToolUseError e = true)
    (hlen : 3 ≤ hierarchy.length) :
    ∀ rem attempt,
      synthesizeAux behavior doc sections ss hierarchy now rem attempt =
        .ok (fallback_analysis doc sections ss hierarchy now) := by
  intro rem
  induction rem with
  | zero => intro attempt; rfl
  | succ n ih =>
    intro attempt
    obtain ⟨e, he, hte⟩ := hfail attempt (mkSynthInput doc ss hierarchy attempt)
    simp only [synthesizeAux, he, hte, if_true, if_neg (by omega : ¬hierarchy.length < 3)]
    exact ih (attempt + 1)

/-- Claim C8 (amended). When all retry attempts of the final synthesis
fail with a classified tool-invocation error (and the hierarchy has its
usual 3 levels), the synthesizer returns — without any further LLM call
and without raising — the deterministic fallback analysis, whose
`paper_title` is the *first line* of the 2000-character document head
(which may be the empty string; the code takes `split('\n')[0]`, not
the first non-empty line) and whose relevance and quality scores are
the fixed moderate defaults 0.7. -/
theorem final_synthesis_fallback_first_line
    (behavior : Nat → SynthInput → Except (List Char) ComprehensivePaperAnalysis)
    (doc : List Char) (sections : List Section) (ss : List SectionSummary)
    (hierarchy : List HierarchicalLevel) (now : List Char)
    (hfail : ∀ n inp, ∃ e, behavior n inp = Except.error e ∧ isToolUseError e = true)
    (hlen : 3 ≤ hierarchy.length) :
    synthesize_final_analysis behavior doc sections ss hierarchy now =
        .ok (fallback_analysis doc sections ss hierarchy now) ∧
      (fallback_analysis doc sections ss hierarchy now).paper_title =
        ((pySplit ['\n'] (doc.take 2000)).take 5).headD (("Unknown Paper").toList) ∧
      (fallback_analysis doc sections ss hierarchy now).relevance_score = (0.7 : Rat) ∧
      (fallback_analysis doc sections ss hierarchy now).quality_score = (0.7 : Rat) := by
  refine ⟨synthesizeAux_all_classified_fail behavior doc sections ss hierarchy now
    hfail hlen 3 0, ?_, rfl, rfl⟩
  show (match ((pySplit ['\n'] (doc.take 2000)).take 5) with
    | t :: _ => t
    | [] => ("Unknown Paper").toList) = _
  cases ((pySplit ['\n'] (doc.take 2000)).take 5) <;> rfl

/-- Witness for C8 (amended): a concrete always-failing classified
behaviour on a document whose head starts with an empty line. -/
theorem final_synthesis_fallback_first_line_witness :
    synthesize_final_analysis (fun _ _ => Except.error (("tool_use_failed").toList))
        (("\nReal Title").toList) [] [] [defaultLevel, defaultLevel, defaultLevel] [] =
        .ok (fallback_analysis (("\nReal Title").toList) [] []
          [defaultLevel, defaultLevel, defaultLevel] []) ∧
      (fallback_analysis (("\nReal Title").toList) [] []
          [defaultLevel, defaultLevel, defaultLevel] []).paper_title =
        ((pySplit ['\n'] ((("\nReal Title").toList).take 2000)).take 5).headD
          (("Unknown Paper").toList) ∧
      (fallback_analysis (("\nReal Title").toList) [] []
          [defaultLevel, defaultLevel, defaultLevel] []).relevance_score = (0.7 : Rat) ∧
      (fallback_analysis (("\nReal Title").toList) [] []
          [defaultLevel, defaultLevel, defaultLevel] []).quality_score = (0.7 : Rat) :=
  final_synthesis_fallback_first_line _ _ _ _ _ _
    (fun _ _ => ⟨("tool_use_failed").toList, rfl, by decide⟩) (by decide)

/-- Claim C8, counterexample. The claim says the fallback `paper_title` is
derived from the first *non-empty* line of the document head.  On a
document starting with an empty line the code returns the empty first
line, while the first non-empty line is `"Real Title"`. -/
theorem final_synthesis_fallback_title_counterexample :
    synthesize_final_analysis (fun _ _ => Except.error (("tool_use_failed").toList))
        (("\nReal Title").toList) [] [] [defaultLevel, defaultLevel, defaultLevel] [] =
        .ok (fallback_analysis (("\nReal Title").toList) [] []
          [defaultLevel, defaultLevel, defaultLevel] []) ∧
      (fallback_analysis (("\nReal Title").toList) [] []
          [defaultLevel, defaultLevel, defaultLevel] []).paper_title = [] ∧
      specFirstNonEmptyLine ((("\nReal Title").toList).take 2000) =
        some (("Real Title").toList) ∧
      ([] : List Char) ≠ ("Real Title").toList := by
  exact ⟨rfl, rfl, by decide, by decide⟩

/-! ## C6: total behaviour of `safe_structured_invoke` with a fallback -/

theorem parse_with_repair_validated {T : Type} (validate : Json → Option T) :
    ∀ n cur t, parse_with_repair validate n cur = some t →
      ∃ v, validate v = some t := by
  intro n
  induction n with
  | zero => intro cur t h; exact absurd h (by simp [parse_with_repair])
  | succ n ih =>
    intro cur t h
    simp only [parse_with_repair] at h
    cases hj : jsonParse cur with
    | none => rw [hj] at h; exact ih _ t h
    | some data => rw [hj] at h; exact ⟨data, h⟩

theorem safeInvokeAux_spec {T : Type} (attempts : Nat → Except (List Char) T)
    (validate : Json → Option T) (f : T) :
    ∀ rem attempt lastErr,
      ∃ t, safeInvokeAux attempts validate (some f) rem attempt lastErr = .ok t ∧
        (t = f ∨ (∃ n, attempts n = .ok t) ∨ ∃ v, validate v = some t) := by
  intro rem
  induction rem with
  | zero => intro attempt lastErr; exact ⟨f, rfl, Or.inl rfl⟩
  | succ n ih =>
    intro attempt lastErr
    cases ha : attempts attempt with
    | ok t =>
      exact ⟨t, by simp [safeInvokeAux, ha], Or.inr (Or.inl ⟨attempt, ha⟩)⟩
    | error e =>
      simp only [safeInvokeAux, ha]
      by_cases hc : (hasSub e kFailedGeneration || hasSub e kFailedToParse) = true
      · rw [if_pos hc]
        cases he : extract_json_from_error e with
        | none => dsimp only; exact ih (attempt + 1) e
        | some fj =>
          dsimp only
          cases hp : parse_with_repair validate 3
              (repair_json ((extract_arguments_from_tool_call fj).getD fj)) with
          | none => dsimp only; exact ih (attempt + 1) e
          | some t =>
            dsimp only
            exact ⟨t, rfl, Or.inr (Or.inr (parse_with_repair_validated validate 3 _ t hp))⟩
      · rw [if_neg hc]
        exact ih (attempt + 1) e

/-- Claim C6. For every schema (validation oracle), message list (already
folded into the attempt oracle) and LLM behaviour,
`safe_structured_invoke` called with a non-`None` fallback never
raises: it returns a value that is a direct structured-output success,
an instance validated against the schema by the JSON-repair path, or —
after exhausting `max_retries + 1` attempts — exactly the supplied
fallback object. -/
theorem safe_structured_invoke_never_raises (T : Type)
    (attempts : Nat → Except (List Char) T) (validate : Json → Option T)
    (maxRetries : Nat) (f : T) :
    ∃ t, safe_structured_invoke attempts validate maxRetries (some f) = .ok t ∧
      (t = f ∨ (∃ n, attempts n = .ok t) ∨ ∃ v, validate v = some t) :=
  safeInvokeAux_spec attempts validate f (maxRetries + 1) 0 []

/-! ## C3: section detection -/

/-- Once a section has pending content (or a section was already
emitted), the scanner ends with at least one section. -/
theorem detectSectionsAux_pos :
    ∀ (L : List (List Char)) (i : Nat) (cur : Option (List Char × List Char × Nat))
      (contentRev : List (List Char)) (accRev : List Section),
      (accRev ≠ [] ∨ (cur.isSome = true ∧ contentRev ≠ [])) →
      1 ≤ (detectSectionsAux i L cur contentRev accRev).length := by
  intro L
  induction L with
  | nil =>
    intro i cur contentRev accRev hgood
    simp only [detectSectionsAux, List.length_reverse]
    cases cur with
    | none =>
      dsimp only
      rcases hgood with hacc | ⟨hsome, _⟩
      · exact List.length_pos.mpr hacc
      · simp at hsome
    | some c =>
      dsimp only
      by_cases hc : contentRev ≠ []
      · simp [hc]
      · rcases hgood with hacc | ⟨_, hne⟩
        · simp only [if_neg hc]
          exact List.length_pos.mpr hacc
        · exact absurd hne hc
  | cons line rest ih =>
    intro i cur contentRev accRev hgood
    simp only [detectSectionsAux]
    cases hdt : detectType line with
    | some ty =>
      dsimp only
      apply ih
      left
      cases cur with
      | none =>
        dsimp only
        rcases hgood with hacc | ⟨hsome, _⟩
        · exact hacc
        · simp at hsome
      | some c =>
        dsimp only
        by_cases hc : contentRev ≠ []
        · simp [hc]
        · rcases hgood with hacc | ⟨_, hne⟩
          · simpa [if_neg hc] using hacc
          · exact absurd hne hc
    | none =>
      cases cur with
      | some c =>
        dsimp only
        apply ih
        rcases hgood with hacc | ⟨_, _⟩
        · exact Or.inl hacc
        · exact Or.inr ⟨rfl, by simp⟩
      | none =>
        dsimp only
        apply ih
        rcases hgood with hacc | ⟨hsome, _⟩
        · exact Or.inl hacc
        · simp at hsome

/-- With a section header already open, any later non-header line
forces at least one emitted section. -/
theorem detectSectionsAux_pending_nonheader :
    ∀ (L : List (List Char)) (i : Nat) (cur : Option (List Char × List Char × Nat))
      (contentRev : List (List Char)) (accRev : List Section),
      cur.isSome = true → (∃ l ∈ L, detectType l = none) →
      1 ≤ (detectSectionsAux i L cur contentRev accRev).length := by
  intro L
  induction L with
  | nil =>
    intro i cur contentRev accRev _ hex
    rcases hex with ⟨l, hl, _⟩
    simp at hl
  | cons line rest ih =>
    intro i cur contentRev accRev hsome hex
    simp only [detectSectionsAux]
    cases hdt : detectType line with
    | some ty =>
      dsimp only
      rcases hex with ⟨l, hl, hlnone⟩
      rcases List.mem_cons.1 hl with hline | hlr
      · subst hline
        rw [hdt] at hlnone
        exact absurd hlnone (by simp)
      · exact ih (i + 1) (some (ty, pyStrip line, i)) [] _ rfl ⟨l, hlr, hlnone⟩
    | none =>
      cases cur with
      | some c =>
        dsimp only
        exact detectSectionsAux_pos rest (i + 1) (some c) (line :: contentRev) accRev
          (Or.inr ⟨rfl, by simp⟩)
      | none => simp at hsome

/-- A header line followed (at any later index) by a non-header line
guarantees at least one section. -/
theorem detectSectionsAux_header_nonheader :
    ∀ (L : List (List Char)) (i : Nat) (cur : Option (List Char × List Char × Nat))
      (contentRev : List (List Char)) (accRev : List Section),
      (∃ a b la lb, a < b ∧ L.get? a = some la ∧ (detectType la).isSome = true ∧
        L.get? b = some lb ∧ detectType lb = none) →
      1 ≤ (detectSectionsAux i L cur contentRev accRev).length := by
  intro L
  induction L with
  | nil =>
    intro i cur contentRev accRev hex
    obtain ⟨a, b, la, lb, _, ha, _, _, _⟩ := hex
    simp at ha
  | cons line rest ih =>
    intro i cur contentRev accRev hex
    obtain ⟨a, b, la, lb, hab, ha, hla, hb, hlb⟩ := hex
    cases b with
    | zero => omega
    | succ b' =>
      have hbrest : rest.get? b' = some lb := by simpa using hb
      simp only [detectSectionsAux]
      cases hdt : detectType line with
      | some ty =>
        dsimp only
        exact detectSectionsAux_pending_nonheader rest (i + 1)
          (some (ty, pyStrip line, i)) [] _ rfl ⟨lb, List.get?_mem hbrest, hlb⟩
      | none =>
        cases a with
        | zero =>
          have hline : line = la := by simpa using ha
          subst hline
          rw [hdt] at hla
          exact absurd hla (by simp)
        | succ a' =>
          have harest : rest.get? a' = some la := by simpa using ha
          cases cur with
          | some c =>
            dsimp only
            exact ih (i + 1) (some c) (line :: contentRev) accRev
              ⟨a', b', la, lb, by omega, harest, hla, hbrest, hlb⟩
          | none =>
            dsimp only
            exact ih (i + 1) none contentRev accRev
              ⟨a', b', la, lb, by omega, harest, hla, hbrest, hlb⟩

/-- Claim C3, counterexample. The claim promises at least one section for
every document containing at least one recognizable header line.  The
single-line document `"Abstract"` is a recognizable `abstract` header
(pattern match, stripped length < 100), yet `detect_sections` returns
`[]`: a section is only emitted once at least one further line has
accumulated as content (lines 205 and 227 both require non-empty
`current_content`). -/
theorem detect_sections_header_only_counterexample :
    detectType (("Abstract").toList) = some (("abstract").toList) ∧
      detect_sections (("Abstract").toList) = [] := by
  exact ⟨by decide, by decide⟩

/-- Claim C3 (amended). For every document whose line list contains a
recognizable section header followed, at any later position, by a
non-header line, `detect_sections` returns at least one section.  (A
header with no subsequent line — or followed only by further headers —
yields no section, as the counterexample shows.) -/
theorem detect_sections_nonempty (doc : List Char)
    (h : ∃ a b la lb, a < b ∧ (pySplit ['\n'] doc).get? a = some la ∧
      (detectType la).isSome = true ∧ (pySplit ['\n'] doc).get? b = some lb ∧
      detectType lb = none) :
    1 ≤ (detect_sections doc).length :=
  detectSectionsAux_header_nonheader (pySplit ['\n'] doc) 0 none [] [] h

/-- Witness for C3 (amended): the spec's scenario document
`"ABSTRACT\nWe study X."`. -/
theorem detect_sections_nonempty_witness :
    1 ≤ (detect_sections (("ABSTRACT\nWe study X.").toList)).length :=
  detect_sections_nonempty (("ABSTRACT\nWe study X.").toList)
    ⟨0, 1, ("ABSTRACT").toList, ("We study X.").toList, by omega, by decide, by decide,
      by decide, by decide⟩


/-! ## C5: `repair_json` on already-valid JSON -/

theorem reSubAux_id (m : List Char → Option (List Char × List Char)) :
    ∀ s : List Char, (∀ c t, (c :: t) <:+ s → m (c :: t) = none) →
      ∀ fuel, reSubAux m fuel s = s := by
  intro s
  induction s with
  | nil => intro _ fuel; cases fuel <;> rfl
  | cons c t ih =>
    intro h fuel
    cases fuel with
    | zero => rfl
    | succ n =>
      simp only [reSubAux]
      rw [h c t (List.suffix_refl _)]
      dsimp only
      rw [ih (fun c' t' hs => h c' t' (hs.trans (List.suffix_cons c t))) n]

theorem matchBoldKey_none_of_safe (c : Char) (t : List Char)
    (h : safeRepairChar c = true) : matchBoldKey (c :: t) = none := by
  have hc : c ≠ '*' := by
    intro heq; subst heq; exact absurd h (by decide)
  unfold matchBoldKey
  cases t with
  | nil => rfl
  | cons c2 t2 =>
    dsimp only
    rw [if_neg (fun hand => hc hand.1)]

theorem matchTrailingComma_none_of_safe (c : Char) (t : List Char)
    (h : safeRepairChar c = true) : matchTrailingComma (c :: t) = none := by
  have hc : c ≠ ',' := by
    intro heq; subst heq; exact absurd h (by decide)
  unfold matchTrailingComma
  dsimp only
  rw [if_neg hc]

theorem matchUnquotedKey_none_of_safe (c : Char) (t : List Char)
    (h : safeRepairChar c = true) : matchUnquotedKey (c :: t) = none := by
  have hc : ¬(c = '{' ∨ c = ',') := by
    intro hor
    rcases hor with heq | heq <;> (subst heq; exact absurd h (by decide))
  unfold matchUnquotedKey
  dsimp only
  rw [if_neg hc]

theorem matchBoldValue_none_of_safe (c : Char) (t : List Char)
    (h : ∀ x ∈ c :: t, safeRepairChar x = true) : matchBoldValue (c :: t) = none := by
  unfold matchBoldValue
  dsimp only
  by_cases hc : c = ':'
  · rw [if_pos hc]
    cases hul : t.drop ((t.takeWhile isPySpace).length) with
    | nil => rfl
    | cons u0 u1 =>
      have hu0 : u0 ∈ t := by
        have hmem : u0 ∈ t.drop ((t.takeWhile isPySpace).length) := by
          rw [hul]; exact List.mem_cons_self _ _
        exact List.mem_of_mem_drop hmem
      have hne : u0 ≠ '*' := by
        intro heq
        subst heq
        exact absurd (h '*' (List.mem_cons_of_mem _ hu0)) (by decide)
      cases u1 with
      | nil => rfl
      | cons u2 u3 =>
        dsimp only
        rw [if_neg (fun hand => hne hand.1)]
  · rw [if_neg hc]

theorem repair_json_id_on_safe (s : List Char)
    (h : ∀ c ∈ s, safeRepairChar c = true) : repair_json s = s := by
  unfold repair_json
  by_cases hnil : s = []
  · simp [hnil]
  · rw [if_neg hnil]
    have hsub : ∀ m : List Char → Option (List Char × List Char),
        (∀ c t, (∀ x ∈ c :: t, safeRepairChar x = true) → m (c :: t) = none) →
        reSub m s = s := by
      intro m hm
      unfold reSub
      apply reSubAux_id
      intro c t hsuf
      exact hm c t (fun x hx => h x (hsuf.subset hx))
    dsimp only
    rw [hsub matchBoldKey (fun c t hct => matchBoldKey_none_of_safe c t
      (hct c (List.mem_cons_self c t)))]
    rw [hsub matchBoldValue (fun c t hct => matchBoldValue_none_of_safe c t hct)]
    rw [hsub matchUnquotedKey (fun c t hct => matchUnquotedKey_none_of_safe c t
      (hct c (List.mem_cons_self c t)))]
    rw [hsub matchTrailingComma (fun c t hct => matchTrailingComma_none_of_safe c t
      (hct c (List.mem_cons_self c t)))]
    have hapos : apos ∉ s := fun hm => absurd (h apos hm) (by decide)
    rw [if_neg (fun hcon => hapos (And.right hcon))]
    apply map_eq_self_of_pointwise
    intro c hc
    have hsafe := h c hc
    have h1 : ¬(c = nbHyphen ∨ c = enDash ∨ c = emDash) := by
      intro hor
      rcases hor with heq | heq | heq <;> (subst heq; exact absurd hsafe (by decide))
    rw [if_neg h1]

/-- Claim C5 (amended). `repair_json` is the identity — hence a parse
no-op — on every string containing none of the characters its fixes
react to (`*`, `'`, `{`, `,`, and the three unicode dash variants).
On general valid JSON it is *not* a semantic no-op: the dash
normalization of Fix 6 and the key-quoting of Fix 3 also rewrite
material inside string literals (see the counterexample). -/
theorem repair_json_noop_on_safe_chars (s : List Char)
    (h : ∀ c ∈ s, safeRepairChar c = true) :
    repair_json s = s ∧ jsonParse (repair_json s) = jsonParse s := by
  have hid := repair_json_id_on_safe s h
  exact ⟨hid, by rw [hid]⟩

/-- Witness for C5 (amended): the valid JSON document `[1]`. -/
theorem repair_json_noop_on_safe_chars_witness :
    repair_json (("[1]").toList) = ("[1]").toList ∧
      jsonParse (repair_json (("[1]").toList)) = jsonParse (("[1]").toList) :=
  repair_json_noop_on_safe_chars (("[1]").toList) (by decide)

/-- Claim C5, counterexample. The claim says `repair_json` is semantically
a no-op on every valid JSON input.  On the valid JSON string literal
`"a–b"` (en dash inside the string value), Fix 6 rewrites the dash, so
the repaired text parses to a different string value. -/
theorem repair_json_changes_valid_json_counterexample :
    repair_json (("\"a–b\"").toList) = ("\"a-b\"").toList ∧
      jsonParse (("\"a–b\"").toList) = some (Json.str (("a–b").toList)) ∧
      jsonParse (repair_json (("\"a–b\"").toList)) =
        some (Json.str (("a-b").toList)) ∧
      jsonParse (repair_json (("\"a–b\"").toList)) ≠
        jsonParse (("\"a–b\"").toList) := by
  refine ⟨by decide, rfl, rfl, ?_⟩
  intro heq
  have h1 : jsonParse (("\"a–b\"").toList) = some (Json.str (("a–b").toList)) := rfl
  have h2 : jsonParse (repair_json (("\"a–b\"").toList)) =
      some (Json.str (("a-b").toList)) := rfl
  rw [h1, h2] at heq
  injection heq with h3
  injection h3 with h4
  exact absurd h4 (by decide)

end ResearchCopilot
